import Mathlib

/-!
Verification of the job-recommendation platform (resume parsing and
job ranking/cache engine) against its natural-language specification.

Python strings are modelled as `List Char`; Python string methods
(`lower`, `strip`, `split`, `join`, `sorted`) are given faithful
executable models below.  Real-valued numeric code (embedding scores,
distances) is modelled over `ℚ`, which represents the exact real
computation the source performs; timestamps are modelled as integers
(seconds), with `timedelta(days=d)` as `d * 86400`.
-/

/-- Convert a Lean string literal to the `List Char` model of a Python string. -/
def pys (s : String) : List Char := s.data

/-- Python whitespace characters (the set stripped by `str.strip()` and
matched by the regex class `\s`): space, tab, newline, carriage return,
vertical tab, form feed. -/
def pyIsSpace (c : Char) : Bool :=
  c = ' ' || c = '\t' || c = '\n' || c = '\r' || c = Char.ofNat 11 || c = Char.ofNat 12

/-- ASCII model of Python `str.lower()` on a single character. -/
def pyLowerChar (c : Char) : Char :=
  if 'A' ≤ c && c ≤ 'Z' then Char.ofNat (c.toNat + 32) else c

/-- Model of Python `str.lower()`. -/
def pyLower (s : List Char) : List Char := s.map pyLowerChar

/-- Model of Python `str.strip()`: drop whitespace from both ends. -/
def pyStrip (s : List Char) : List Char :=
  ((s.dropWhile pyIsSpace).reverse.dropWhile pyIsSpace).reverse

/-- Lexicographic comparison of character lists by code point, the order
used by Python `sorted` on strings. -/
def lexLeB : List Char → List Char → Bool
  | [], _ => true
  | _ :: _, [] => false
  | a :: as, b :: bs => if a = b then lexLeB as bs else decide (a < b)

/-- Propositional form of `lexLeB`, for use with the sorting lemmas. -/
def lexLe (a b : List Char) : Prop := lexLeB a b = true

instance : DecidableRel lexLe := fun a b => by unfold lexLe; infer_instance

theorem lexLeB_total : ∀ a b, lexLeB a b = true ∨ lexLeB b a = true
  | [], _ => Or.inl rfl
  | _ :: _, [] => Or.inr rfl
  | a :: as, b :: bs => by
    by_cases hab : a = b
    · subst hab
      simpa [lexLeB] using lexLeB_total as bs
    · have hne : b ≠ a := fun h => hab h.symm
      rcases lt_or_gt_of_ne (show a ≠ b from hab) with h | h
      · left; simp [lexLeB, hab, h]
      · right; simp [lexLeB, hne, h]

theorem lexLeB_antisymm : ∀ a b, lexLeB a b = true → lexLeB b a = true → a = b
  | [], [], _, _ => rfl
  | [], _ :: _, _, h => by simp [lexLeB] at h
  | _ :: _, [], h, _ => by simp [lexLeB] at h
  | a :: as, b :: bs, h₁, h₂ => by
    by_cases hab : a = b
    · subst hab
      simp only [lexLeB, if_pos rfl] at h₁ h₂
      exact congrArg (a :: ·) (lexLeB_antisymm as bs h₁ h₂)
    · have hne : b ≠ a := fun h => hab h.symm
      simp only [lexLeB, if_neg hab] at h₁
      simp only [lexLeB, if_neg hne] at h₂
      exact absurd (lt_trans (of_decide_eq_true h₁) (of_decide_eq_true h₂)) (lt_irrefl a)

theorem lexLeB_trans : ∀ a b c, lexLeB a b = true → lexLeB b c = true → lexLeB a c = true
  | [], _, _, _, _ => rfl
  | _ :: _, [], _, h, _ => by simp [lexLeB] at h
  | _ :: _, _ :: _, [], _, h => by simp [lexLeB] at h
  | a :: as, b :: bs, c :: cs, h₁, h₂ => by
    by_cases hab : a = b <;> by_cases hbc : b = c
    · subst hab; subst hbc
      simp only [lexLeB, if_pos rfl] at h₁ h₂ ⊢
      exact lexLeB_trans as bs cs h₁ h₂
    · subst hab
      simpa [lexLeB, hbc] using h₂
    · subst hbc
      simpa [lexLeB, hab] using h₁
    · simp only [lexLeB, if_neg hab] at h₁
      simp only [lexLeB, if_neg hbc] at h₂
      have hac : a < c := lt_trans (of_decide_eq_true h₁) (of_decide_eq_true h₂)
      have : a ≠ c := ne_of_lt hac
      simp [lexLeB, this, hac]

instance : IsTotal (List Char) lexLe := ⟨fun a b => lexLeB_total a b⟩
instance : IsTrans (List Char) lexLe := ⟨fun a b c => lexLeB_trans a b c⟩
instance : IsAntisymm (List Char) lexLe := ⟨fun a b => lexLeB_antisymm a b⟩

/-- Model of Python `sorted` on a list of strings (stable, ascending by
code-point order). -/
def pySorted (l : List (List Char)) : List (List Char) := List.insertionSort lexLe l

theorem pySorted_perm_congr {l₁ l₂ : List (List Char)} (h : l₁.Perm l₂) :
    pySorted l₁ = pySorted l₂ :=
  List.eq_of_perm_of_sorted
    (((List.perm_insertionSort lexLe l₁).trans h).trans (List.perm_insertionSort lexLe l₂).symm)
    (List.sorted_insertionSort lexLe l₁) (List.sorted_insertionSort lexLe l₂)

/-- From `src/app/db/crud.py`, `generate_query_hash`: the normalized query
string `",".join(sorted([s.lower().strip() for s in skills])) + "|" +
experience_level.lower().strip() + "|" + (location or "").lower().strip()`.
The source feeds this string to a SHA-256 digest; the digest is a fixed
deterministic function of the string, so equality of derived keys is
equality of these normalized query strings, and the digest application is
omitted from the model. -/
def generate_query_hash (skills : List (List Char)) (experience_level : List Char)
    (location : Option (List Char)) : List Char :=
  let skills_str := List.intercalate (pys ",")
    (pySorted (skills.map (fun s => pyStrip (pyLower s))))
  let exp_str := pyStrip (pyLower experience_level)
  let loc_str := pyStrip (pyLower (location.getD []))
  skills_str ++ pys "|" ++ exp_str ++ pys "|" ++ loc_str

/-- **C2.** The cache key is invariant under permutation of the skill list
and under letter-case changes of skills, level and location, and a missing
location behaves as the empty string. -/
theorem claim_C2_cache_key_invariance :
    (∀ (s₁ s₂ : List (List Char)) (l₁ l₂ : List Char) (loc₁ loc₂ : Option (List Char)),
      (s₁.map (fun s => pyStrip (pyLower s))).Perm (s₂.map (fun s => pyStrip (pyLower s))) →
      pyLower l₁ = pyLower l₂ →
      pyLower (loc₁.getD []) = pyLower (loc₂.getD []) →
      generate_query_hash s₁ l₁ loc₁ = generate_query_hash s₂ l₂ loc₂) ∧
    (∀ (s : List (List Char)) (l : List Char),
      generate_query_hash s l none = generate_query_hash s l (some [])) := by
  constructor
  · intro s₁ s₂ l₁ l₂ loc₁ loc₂ hperm hl hloc
    unfold generate_query_hash
    rw [pySorted_perm_congr hperm, hl, hloc]
  · intro s l
    rfl

/-- Witness for C2 at the concrete inputs named by the specification:
`key(["Python","SQL"], "Mid", "India") = key(["sql","python"], "mid", "india")`. -/
theorem claim_C2_cache_key_invariance_witness :
    generate_query_hash [pys "Python", pys "SQL"] (pys "Mid") (some (pys "India")) =
      generate_query_hash [pys "sql", pys "python"] (pys "mid") (some (pys "india")) :=
  claim_C2_cache_key_invariance.1 [pys "Python", pys "SQL"] [pys "sql", pys "python"]
    (pys "Mid") (pys "mid") (some (pys "India")) (some (pys "india"))
    (by decide) (by decide) (by decide)

/-! ## Cache store model (`src/app/db/crud.py`, `src/app/db/models.py`)

Timestamps are integers (seconds); `timedelta(days=d)` is `d * 86400`.
-/

/-- A job dictionary as produced by the fetcher and consumed by
`store_jobs_in_cache` / returned by `job_to_dict`. -/
structure JobDict where
  id : List Char
  title : List Char
  company : List Char
  location : Option (List Char)
  description : Option (List Char)
  requirements : Option (List Char)
  employment_type : Option (List Char)
  experience_level : Option (List Char)
  url : Option (List Char)
  min_salary : Option Int
  max_salary : Option Int
  is_remote : Bool
deriving DecidableEq

/-- Row of the `cached_jobs` table (`CachedJob` in `src/app/db/models.py`);
`id` is the primary key.  The `raw_data` JSON copy and the bookkeeping
timestamps (`fetched_at`, `created_at`, `updated_at`) are never read by the
modelled code paths and are omitted. -/
structure CachedJobRow where
  id : List Char
  title : List Char
  company : List Char
  location : Option (List Char)
  description : Option (List Char)
  requirements : Option (List Char)
  employment_type : Option (List Char)
  experience_level : Option (List Char)
  url : Option (List Char)
  salary_min : Option Int
  salary_max : Option Int
  is_remote : Bool
  search_query_hash : List Char
  expires_at : Int
deriving DecidableEq

/-- Row of the `search_queries` table (`SearchQuery` in
`src/app/db/models.py`); `query_hash` carries a uniqueness constraint. -/
structure SearchQueryRow where
  query_hash : List Char
  keywords : List (List Char)
  skills : List (List Char)
  experience_level : List Char
  location : Option (List Char)
  query_count : Nat
  last_fetched_at : Option Int
  expires_at : Int
deriving DecidableEq

/-- The cache-relevant database state. -/
structure Db where
  searchQueries : List SearchQueryRow
  cachedJobs : List CachedJobRow
deriving DecidableEq

/-- From `src/app/db/crud.py`, `job_to_dict`: project a cached row back to a
job dictionary.  The source converts the salary columns with
`float(x) if x else None`, so a stored salary of `0` comes back as `None`. -/
def job_to_dict (job : CachedJobRow) : JobDict :=
  { id := job.id
    title := job.title
    company := job.company
    location := job.location
    description := job.description
    requirements := job.requirements
    employment_type := job.employment_type
    experience_level := job.experience_level
    url := job.url
    min_salary := job.salary_min.bind (fun v => if v = 0 then none else some v)
    max_salary := job.salary_max.bind (fun v => if v = 0 then none else some v)
    is_remote := job.is_remote }

/-- From `src/app/db/crud.py`, `check_cached_jobs`: look up the query row by
hash with `expires_at > utcnow()`, then collect the cached jobs under the
same hash that are not expired; `None` when either step finds nothing.
The hit path also increments the query row's `query_count` and refreshes its
`last_fetched_at`; that bookkeeping touches no field read by a lookup and is
not returned here. -/
def check_cached_jobs (db : Db) (skills : List (List Char)) (experience_level : List Char)
    (location : Option (List Char)) (now : Int) : Option (List JobDict) :=
  let query_hash := generate_query_hash skills experience_level location
  match db.searchQueries.find?
      (fun r => r.query_hash == query_hash && decide (now < r.expires_at)) with
  | none => none
  | some _ =>
    let cached_jobs := db.cachedJobs.filter
      (fun c => c.search_query_hash == query_hash && decide (now < c.expires_at))
    if cached_jobs.isEmpty then none else some (cached_jobs.map job_to_dict)

/-- Replace the first element satisfying `p` (the row addressed by a
`scalar_one_or_none` lookup followed by an attribute mutation). -/
def updateFirst (p : α → Bool) (f : α → α) : List α → List α
  | [] => []
  | x :: xs => if p x then f x :: xs else x :: updateFirst p f xs

/-- Build the `CachedJob` row that `store_jobs_in_cache` creates for one job
dictionary. -/
def toCachedJobRow (job : JobDict) (query_hash : List Char) (expires_at : Int) : CachedJobRow :=
  { id := job.id
    title := job.title
    company := job.company
    location := job.location
    description := job.description
    requirements := job.requirements
    employment_type := job.employment_type
    experience_level := job.experience_level
    url := job.url
    salary_min := job.min_salary
    salary_max := job.max_salary
    is_remote := job.is_remote
    search_query_hash := query_hash
    expires_at := expires_at }

/-- `db.merge` on a `CachedJob`: upsert by the primary key `id`. -/
def mergeCachedJob (rows : List CachedJobRow) (row : CachedJobRow) : List CachedJobRow :=
  if rows.any (fun r => r.id == row.id) then
    updateFirst (fun r => r.id == row.id) (fun _ => row) rows
  else rows ++ [row]

/-- From `src/app/db/crud.py`, `store_jobs_in_cache`: refresh or create the
query row with `expires_at = utcnow() + timedelta(days=ttl_days)`, then merge
every job under the new hash and expiry. -/
def store_jobs_in_cache (db : Db) (jobs : List JobDict) (skills : List (List Char))
    (experience_level : List Char) (location : Option (List Char))
    (ttl_days : Int) (now : Int) : Db :=
  let query_hash := generate_query_hash skills experience_level location
  let expires_at := now + ttl_days * 86400
  let searchQueries :=
    match db.searchQueries.find? (fun r => r.query_hash == query_hash) with
    | some _ =>
      updateFirst (fun r => r.query_hash == query_hash)
        (fun r => { r with query_count := r.query_count + 1,
                           last_fetched_at := some now,
                           expires_at := expires_at }) db.searchQueries
    | none =>
      db.searchQueries ++
        [{ query_hash := query_hash
           keywords := skills.take 10
           skills := skills
           experience_level := experience_level
           location := location
           query_count := 1
           last_fetched_at := some now
           expires_at := expires_at }]
  { searchQueries := searchQueries
    cachedJobs := jobs.foldl
      (fun rows job => mergeCachedJob rows (toCachedJobRow job query_hash expires_at))
      db.cachedJobs }

theorem updateFirst_cons_pos {α} {p : α → Bool} {f : α → α} {a : α} (as : List α)
    (h : p a = true) : updateFirst p f (a :: as) = f a :: as := by
  simp [updateFirst, h]

theorem updateFirst_cons_neg {α} {p : α → Bool} {f : α → α} {a : α} (as : List α)
    (h : p a = false) : updateFirst p f (a :: as) = a :: updateFirst p f as := by
  simp [updateFirst, h]

theorem mem_updateFirst_of_find? {α} {p : α → Bool} {f : α → α} {l : List α} {r : α}
    (h : l.find? p = some r) : f r ∈ updateFirst p f l := by
  induction l with
  | nil => simp at h
  | cons a as ih =>
    cases ha : p a with
    | true =>
      rw [List.find?_cons_of_pos _ ha] at h
      cases h
      rw [updateFirst_cons_pos as ha]
      exact List.mem_cons_self _ _
    | false =>
      rw [List.find?_cons_of_neg _ (by simp [ha])] at h
      rw [updateFirst_cons_neg as ha]
      exact List.mem_cons_of_mem a (ih h)

theorem mem_updateFirst_const {α} {p : α → Bool} {row : α} {l : List α}
    (h : l.any p = true) : row ∈ updateFirst p (fun _ => row) l := by
  induction l with
  | nil => simp at h
  | cons a as ih =>
    cases ha : p a with
    | true =>
      rw [updateFirst_cons_pos as ha]
      exact List.mem_cons_self _ _
    | false =>
      rw [updateFirst_cons_neg as ha]
      simp only [List.any_cons, ha, Bool.false_or] at h
      exact List.mem_cons_of_mem a (ih h)

theorem find?_store_updated_none (l : List SearchQueryRow) (k : List Char) (t now : Int)
    (hNd : (l.map (fun r => r.query_hash)).Nodup)
    (hlt : ¬ now < t + 3 * 86400) :
    List.find? (fun r => r.query_hash == k && decide (now < r.expires_at))
      (updateFirst (fun r => r.query_hash == k)
        (fun r => { r with query_count := r.query_count + 1,
                           last_fetched_at := some t,
                           expires_at := t + 3 * 86400 }) l) = none := by
  induction l with
  | nil => rfl
  | cons a as ih =>
    simp only [List.map_cons, List.nodup_cons, List.mem_map] at hNd
    by_cases hk : a.query_hash = k
    · rw [updateFirst_cons_pos (p := fun r => r.query_hash == k) as (beq_iff_eq.mpr hk)]
      rw [List.find?_cons_of_neg _
        (by simp only [Bool.and_eq_true, decide_eq_true_eq, not_and]; intro _; omega)]
      refine List.find?_eq_none.mpr (fun x hx => ?_)
      simp only [Bool.and_eq_true, beq_iff_eq, not_and]
      intro hxk
      exact absurd ⟨x, hx, hxk.trans hk.symm⟩ hNd.1
    · rw [updateFirst_cons_neg (p := fun r => r.query_hash == k) as (by simp [hk])]
      rw [List.find?_cons_of_neg _ (by simp [hk])]
      exact ih hNd.2

theorem mergeCachedJob_mem (rows : List CachedJobRow) (row : CachedJobRow) :
    row ∈ mergeCachedJob rows row := by
  unfold mergeCachedJob
  by_cases h : rows.any (fun r => r.id == row.id)
  · rw [if_pos h]
    exact mem_updateFirst_const h
  · rw [if_neg h]
    exact List.mem_append_right rows (List.mem_singleton.mpr rfl)

theorem exists_stored_row (qh : List Char) (exp : Int) :
    ∀ (jobs : List JobDict) (rows : List CachedJobRow), jobs ≠ [] →
    ∃ c ∈ jobs.foldl (fun rows job => mergeCachedJob rows (toCachedJobRow job qh exp)) rows,
      c.search_query_hash = qh ∧ c.expires_at = exp := by
  intro jobs
  induction jobs with
  | nil => intro _ h; exact absurd rfl h
  | cons j js ih =>
    intro rows _
    cases js with
    | nil =>
      refine ⟨toCachedJobRow j qh exp, ?_, rfl, rfl⟩
      simpa using mergeCachedJob_mem rows (toCachedJobRow j qh exp)
    | cons j' js' =>
      exact ih (mergeCachedJob rows (toCachedJobRow j qh exp)) (by simp)

theorem check_cached_jobs_none_of_find?_none (db : Db) (skills : List (List Char))
    (lvl : List Char) (loc : Option (List Char)) (now : Int)
    (h : db.searchQueries.find?
      (fun r => r.query_hash == generate_query_hash skills lvl loc
        && decide (now < r.expires_at)) = none) :
    check_cached_jobs db skills lvl loc now = none := by
  simp only [check_cached_jobs]
  rw [h]

/-- **C1.** A cache lookup never returns a cached job whose expiry is not in
the future (every returned entry comes from a stored row with
`now < expires_at`), and jobs stored with `ttl_days = 3` then queried
4 days after the store time yield zero entries. -/
theorem claim_C1_cache_expiry :
    (∀ (db : Db) (skills : List (List Char)) (lvl : List Char) (loc : Option (List Char))
      (now : Int) (res : List JobDict),
      check_cached_jobs db skills lvl loc now = some res →
      ∀ d ∈ res, ∃ c ∈ db.cachedJobs, d = job_to_dict c ∧ now < c.expires_at) ∧
    (∀ (db : Db) (jobs : List JobDict) (skills : List (List Char)) (lvl : List Char)
      (loc : Option (List Char)) (t : Int),
      (db.searchQueries.map (fun r => r.query_hash)).Nodup →
      check_cached_jobs (store_jobs_in_cache db jobs skills lvl loc 3 t)
        skills lvl loc (t + 4 * 86400) = none) := by
  constructor
  · intro db skills lvl loc now res h d hd
    simp only [check_cached_jobs] at h
    split at h
    · exact absurd h (by simp)
    · split at h
      · exact absurd h (by simp)
      · have hres : res = (db.cachedJobs.filter
            (fun c => c.search_query_hash == generate_query_hash skills lvl loc
              && decide (now < c.expires_at))).map job_to_dict :=
          (Option.some_injective _ h).symm
        rw [hres] at hd
        rcases List.mem_map.mp hd with ⟨c, hc, rfl⟩
        rcases List.mem_filter.mp hc with ⟨hmem, hpred⟩
        simp only [Bool.and_eq_true, decide_eq_true_eq] at hpred
        exact ⟨c, hmem, rfl, hpred.2⟩
  · intro db jobs skills lvl loc t hNd
    apply check_cached_jobs_none_of_find?_none
    simp only [store_jobs_in_cache]
    cases hfind : db.searchQueries.find?
        (fun r => r.query_hash == generate_query_hash skills lvl loc) with
    | none =>
      dsimp only
      refine List.find?_eq_none.mpr (fun x hx => ?_)
      rcases List.mem_append.mp hx with hx | hx
      · have hne := List.find?_eq_none.mp hfind x hx
        intro hq
        simp only [Bool.and_eq_true] at hq
        exact hne hq.1
      · have hx' := List.mem_singleton.mp hx
        subst hx'
        simp only [Bool.and_eq_true, decide_eq_true_eq]
        intro hq
        omega
    | some r =>
      dsimp only
      exact find?_store_updated_none db.searchQueries (generate_query_hash skills lvl loc)
        t (t + 4 * 86400) hNd (by omega)

/-- A sample fetched job dictionary, used to instantiate witnesses. -/
def sampleJob : JobDict :=
  { id := pys "j1"
    title := pys "Data Engineer"
    company := pys "Acme"
    location := some (pys "India")
    description := some (pys "Build pipelines")
    requirements := none
    employment_type := some (pys "FULLTIME")
    experience_level := some (pys "entry")
    url := some (pys "u1")
    min_salary := none
    max_salary := none
    is_remote := false }

/-- Witness for C1: on an initially empty database, storing one job with a
3-day TTL and looking it up 4 days later returns nothing. -/
theorem claim_C1_cache_expiry_witness :
    check_cached_jobs
      (store_jobs_in_cache ⟨[], []⟩ [sampleJob] [pys "python"] (pys "entry") none 3 0)
      [pys "python"] (pys "entry") none (0 + 4 * 86400) = none :=
  claim_C1_cache_expiry.2 ⟨[], []⟩ [sampleJob] [pys "python"] (pys "entry") none 0
    (by simp)

/-! ## Cache-first fetch key derivation (`src/app/services/job_service.py`) -/

/-- `settings.DEFAULT_LOCATION` from `src/app/core/config.py`. -/
def DEFAULT_LOCATION : List Char := pys "India"

/-- The fields of a parsed resume that `get_jobs_for_resume` reads:
`parsed_resume.get('skills', [])` and
`parsed_resume.get('experience_level', {}).get('level', 'entry')`. -/
structure ParsedResumeQueryFields where
  skills : List (List Char)
  level : List Char

/-- Key of the initial cache lookup in `get_jobs_for_resume` (lines 46, 60-64
of `src/app/services/job_service.py`): the skill list is truncated to the
first 10 entries before any cache interaction. -/
def get_jobs_for_resume_lookup_key (p : ParsedResumeQueryFields) : List Char :=
  generate_query_hash (p.skills.take 10) p.level (some DEFAULT_LOCATION)

/-- Key under which `get_jobs_for_resume` persists fetched jobs on a miss
(lines 95-101 of `src/app/services/job_service.py`). -/
def get_jobs_for_resume_store_key (p : ParsedResumeQueryFields) : List Char :=
  generate_query_hash (p.skills.take 10) p.level (some DEFAULT_LOCATION)

/-- Level adjustment of the query string in `JobFetcher.fetch_jobs`
(`src/app/services/job_fetcher.py`, lines 23-30). -/
def fetch_jobs_adjust_query (query : List Char) (experience_level : List Char) : List Char :=
  if experience_level = pys "student" then query ++ pys " intern OR internship OR student"
  else if experience_level = pys "entry" then query ++ pys " junior OR entry level OR graduate"
  else if experience_level = pys "senior" then query ++ pys " senior OR lead"
  else if experience_level = pys "lead" then query ++ pys " lead OR principal OR staff"
  else query

/-- The external fetch query built by `get_jobs_for_resume` on a cache miss:
`" OR ".join(skills[:5])` over the already-truncated 10-skill list
(`_fetch_jobs_from_api`, line 127), then level-adjusted by the fetcher. -/
def get_jobs_for_resume_fetch_query (p : ParsedResumeQueryFields) : List Char :=
  fetch_jobs_adjust_query
    (List.intercalate (pys " OR ") ((p.skills.take 10).take 5)) p.level

/-- The fields of the search context that `search_jobs_by_query` reads. -/
structure SearchContext where
  skills : List (List Char)
  experience_level : List Char
  query : List Char

/-- Key of the cache lookup in `search_jobs_by_query` (lines 195-200 of
`src/app/services/job_service.py`): derived from `skills[:5]`. -/
def search_jobs_by_query_lookup_key (c : SearchContext) : List Char :=
  generate_query_hash (c.skills.take 5) c.experience_level (some DEFAULT_LOCATION)

/-- Key under which `search_jobs_by_query` persists fetched jobs (lines
218-226 of `src/app/services/job_service.py`): derived from the full
`skills` list. -/
def search_jobs_by_query_store_key (c : SearchContext) : List Char :=
  generate_query_hash c.skills c.experience_level (some DEFAULT_LOCATION)

/-- **C3, counterexample.** With six distinct skills, the key
`search_jobs_by_query` uses for its cache lookup differs from the key under
which it persists fetched results, so an immediately repeated call cannot
find the stored jobs through its lookup. -/
theorem claim_C3_key_mismatch_cex :
    search_jobs_by_query_lookup_key
        ⟨[pys "a", pys "b", pys "c", pys "d", pys "e", pys "f"], pys "entry", pys "ml"⟩ ≠
      search_jobs_by_query_store_key
        ⟨[pys "a", pys "b", pys "c", pys "d", pys "e", pys "f"], pys "entry", pys "ml"⟩ := by
  decide

/-- **C3, amended.** In `get_jobs_for_resume` the lookup key always equals
the store key, and a store through the shared crud layer is found by a
repeated lookup with identical inputs at any time before expiry; in
`search_jobs_by_query` the lookup key (first 5 skills) equals the store key
(all skills) when the skill list has at most 5 entries. -/
theorem claim_C3_keys_amended :
    (∀ p : ParsedResumeQueryFields,
      get_jobs_for_resume_lookup_key p = get_jobs_for_resume_store_key p) ∧
    (∀ (db : Db) (jobs : List JobDict) (skills : List (List Char)) (lvl : List Char)
      (loc : Option (List Char)) (t dt : Int),
      (db.searchQueries.map (fun r => r.query_hash)).Nodup →
      jobs ≠ [] → 0 ≤ dt → dt < 3 * 86400 →
      ∃ res, check_cached_jobs (store_jobs_in_cache db jobs skills lvl loc 3 t)
        skills lvl loc (t + dt) = some res) ∧
    (∀ c : SearchContext, c.skills.length ≤ 5 →
      search_jobs_by_query_lookup_key c = search_jobs_by_query_store_key c) := by
  refine ⟨fun p => rfl, ?_, ?_⟩
  · intro db jobs skills lvl loc t dt hNd hjobs hdt0 hdt3
    have hqmem : ∃ r ∈ (store_jobs_in_cache db jobs skills lvl loc 3 t).searchQueries,
        (r.query_hash == generate_query_hash skills lvl loc
          && decide (t + dt < r.expires_at)) = true := by
      simp only [store_jobs_in_cache]
      cases hfind : db.searchQueries.find?
          (fun r => r.query_hash == generate_query_hash skills lvl loc) with
      | none =>
        dsimp only
        refine ⟨_, List.mem_append_right _ (List.mem_singleton.mpr rfl), ?_⟩
        simp only [Bool.and_eq_true, beq_iff_eq, decide_eq_true_eq]
        exact ⟨trivial, by omega⟩
      | some r =>
        dsimp only
        refine ⟨_, mem_updateFirst_of_find? hfind, ?_⟩
        have hr := List.find?_some hfind
        simp only [beq_iff_eq] at hr
        simp only [Bool.and_eq_true, beq_iff_eq, decide_eq_true_eq]
        exact ⟨hr, by omega⟩
    have hcmem : ∃ c ∈ (store_jobs_in_cache db jobs skills lvl loc 3 t).cachedJobs,
        (c.search_query_hash == generate_query_hash skills lvl loc
          && decide (t + dt < c.expires_at)) = true := by
      simp only [store_jobs_in_cache]
      rcases exists_stored_row (generate_query_hash skills lvl loc) (t + 3 * 86400)
          jobs db.cachedJobs hjobs with ⟨c, hc, hhash, hexp⟩
      refine ⟨c, hc, ?_⟩
      simp only [Bool.and_eq_true, beq_iff_eq, decide_eq_true_eq]
      exact ⟨hhash, by omega⟩
    simp only [check_cached_jobs]
    rcases hqmem with ⟨r, hrmem, hrq⟩
    cases hfq : (store_jobs_in_cache db jobs skills lvl loc 3 t).searchQueries.find?
        (fun r => r.query_hash == generate_query_hash skills lvl loc
          && decide (t + dt < r.expires_at)) with
    | none => exact absurd hrq (List.find?_eq_none.mp hfq r hrmem)
    | some r' =>
      rcases hcmem with ⟨c, hcmem, hcq⟩
      rw [if_neg ?_]
      · exact ⟨_, rfl⟩
      · intro hemp
        have hcf : c ∈ (store_jobs_in_cache db jobs skills lvl loc 3 t).cachedJobs.filter
            (fun c => c.search_query_hash == generate_query_hash skills lvl loc
              && decide (t + dt < c.expires_at)) :=
          List.mem_filter.mpr ⟨hcmem, hcq⟩
        rw [List.isEmpty_iff.mp hemp] at hcf
        exact absurd hcf (List.not_mem_nil c)
  · intro c hc
    unfold search_jobs_by_query_lookup_key search_jobs_by_query_store_key
    rw [List.take_of_length_le hc]

/-- Witness for C3 (amended): storing one job on an empty database and
repeating the identical query one day later finds a cached result. -/
theorem claim_C3_keys_amended_witness :
    (∃ res, check_cached_jobs
      (store_jobs_in_cache ⟨[], []⟩ [sampleJob] [pys "python"] (pys "entry") none 3 0)
      [pys "python"] (pys "entry") none (0 + 86400) = some res) ∧
    search_jobs_by_query_lookup_key ⟨[pys "python"], pys "entry", pys "ml"⟩ =
      search_jobs_by_query_store_key ⟨[pys "python"], pys "entry", pys "ml"⟩ :=
  ⟨claim_C3_keys_amended.2.1 ⟨[], []⟩ [sampleJob] [pys "python"] (pys "entry") none 0 86400
      (by simp) (by simp) (by omega) (by omega),
   claim_C3_keys_amended.2.2 ⟨[pys "python"], pys "entry", pys "ml"⟩ (by decide)⟩

/-- **C10.** The cache keys and the external fetch query of
`get_jobs_for_resume` depend only on the first 10 skills and the experience
level of the parsed resume. -/
theorem claim_C10_key_depends_on_first_ten :
    ∀ p₁ p₂ : ParsedResumeQueryFields,
      p₁.skills.take 10 = p₂.skills.take 10 → p₁.level = p₂.level →
      get_jobs_for_resume_lookup_key p₁ = get_jobs_for_resume_lookup_key p₂ ∧
      get_jobs_for_resume_store_key p₁ = get_jobs_for_resume_store_key p₂ ∧
      get_jobs_for_resume_fetch_query p₁ = get_jobs_for_resume_fetch_query p₂ := by
  intro p₁ p₂ hs hl
  unfold get_jobs_for_resume_lookup_key get_jobs_for_resume_store_key
    get_jobs_for_resume_fetch_query
  rw [hs, hl]
  exact ⟨rfl, rfl, rfl⟩

/-- Witness for C10: two resumes that agree on their first 10 skills but
differ in an 11th skill derive the same keys and fetch query. -/
theorem claim_C10_key_depends_on_first_ten_witness :
    get_jobs_for_resume_lookup_key
        ⟨[pys "a", pys "b", pys "c", pys "d", pys "e", pys "f", pys "g", pys "h",
          pys "i", pys "j", pys "k"], pys "mid"⟩ =
      get_jobs_for_resume_lookup_key
        ⟨[pys "a", pys "b", pys "c", pys "d", pys "e", pys "f", pys "g", pys "h",
          pys "i", pys "j", pys "z"], pys "mid"⟩ :=
  (claim_C10_key_depends_on_first_ten
    ⟨[pys "a", pys "b", pys "c", pys "d", pys "e", pys "f", pys "g", pys "h",
      pys "i", pys "j", pys "k"], pys "mid"⟩
    ⟨[pys "a", pys "b", pys "c", pys "d", pys "e", pys "f", pys "g", pys "h",
      pys "i", pys "j", pys "z"], pys "mid"⟩
    (by decide) (by decide)).1

/-! ## Section classifier (`src/app/services/section_classifier.py`) -/

/-- Model of the Python substring test `needle in hay`. -/
def isSubstr (needle : List Char) : List Char → Bool
  | [] => needle.isEmpty
  | c :: t => needle.isPrefixOf (c :: t) || isSubstr needle t

/-- Number of positions of `hay` at which `needle` starts (all keywords in
the tables below are nonempty, for which this is the occurrence count). -/
def countOccur (needle : List Char) : List Char → Nat
  | [] => 0
  | c :: t => (if needle.isPrefixOf (c :: t) then 1 else 0) + countOccur needle t

/-- `SECTION_KEYWORDS` from `src/app/services/section_classifier.py`, in the
dictionary insertion order of the source. -/
def SECTION_KEYWORDS : List (List Char × List (List Char)) :=
  [ (pys "skills", [pys "skill", pys "technologies", pys "tools", pys "frameworks",
      pys "languages", pys "proficiencies", pys "technical", pys "programming"]),
    (pys "projects", [pys "project", pys "application", pys "system", pys "platform",
      pys "developed", pys "built", pys "created"]),
    (pys "experience", [pys "experience", pys "work", pys "intern", pys "employment",
      pys "position", pys "role", pys "job"]),
    (pys "education", [pys "education", pys "university", pys "degree", pys "school",
      pys "college", pys "bachelor", pys "master", pys "phd"]),
    (pys "coursework", [pys "coursework", pys "courses", pys "subjects", pys "curriculum",
      pys "classes", pys "relevant coursework"]),
    (pys "certifications", [pys "certification", pys "certificate", pys "licensed",
      pys "accredited"]),
    (pys "activities", [pys "activities", pys "leadership", pys "extracurricular",
      pys "extra-curricular", pys "volunteer", pys "involvement"]) ]

/-- Python `max(scores, key=scores.get)` over an association list in
insertion order: the first entry with a strictly greater value replaces the
running best, so the first entry attaining the maximum wins. -/
def pyMaxByVal {α} : List (α × Nat) → Option (α × Nat)
  | [] => none
  | x :: xs => some (xs.foldl (fun best y => if y.2 > best.2 then y else best) x)

/-- From `src/app/services/section_classifier.py`, `classify_section`:
lowercase `header + " " + content`, force `coursework` when the lowercased
header contains `"coursework"`, otherwise score each type by the number of
its keywords contained in the text, pick the best-scoring type (first wins
on ties), and return `other` when the best score is 0. -/
def classify_section (header content : List Char) : List Char :=
  let text := pyLower (header ++ pys " " ++ content)
  if isSubstr (pys "coursework") (pyLower header) then pys "coursework"
  else
    let scores := SECTION_KEYWORDS.map
      (fun p => (p.1, p.2.countP (fun k => isSubstr k text)))
    match pyMaxByVal scores with
    | none => pys "other"
    | some b => if b.2 > 0 then b.1 else pys "other"

/-- The classification rule as the claim words it: per-type score is the
total count of occurrences of the keywords of the type in the lowercased
heading+content, the first type attaining the maximum (in table order) is
returned, and `other` exactly when the maximum score is 0. -/
def classify_section_claim (header content : List Char) : List Char :=
  let text := pyLower (header ++ pys " " ++ content)
  if isSubstr (pys "coursework") (pyLower header) then pys "coursework"
  else
    let scores := SECTION_KEYWORDS.map
      (fun p => (p.1, (p.2.map (fun k => countOccur k text)).foldr (· + ·) 0))
    let m := (scores.map Prod.snd).foldr max 0
    if m = 0 then pys "other"
    else
      match scores.find? (fun p => p.2 == m) with
      | some p => p.1
      | none => pys "other"

/-- The classification rule with the claim amended so that each keyword
scores at most once: per-type score is the number of the keywords of the
type that occur (at least once) in the text, first maximum in table order
wins, `other` exactly when the maximum is 0. -/
def classify_section_spec (header content : List Char) : List Char :=
  let text := pyLower (header ++ pys " " ++ content)
  if isSubstr (pys "coursework") (pyLower header) then pys "coursework"
  else
    let scores := SECTION_KEYWORDS.map
      (fun p => (p.1, p.2.countP (fun k => isSubstr k text)))
    let m := (scores.map Prod.snd).foldr max 0
    if m = 0 then pys "other"
    else
      match scores.find? (fun p => p.2 == m) with
      | some p => p.1
      | none => pys "other"

/-- **C9, counterexample.** On the section with heading `"x"` and content
`"education university project project project"`, the source returns
`"education"` (two distinct education keywords beat one distinct projects
keyword) while the occurrence-count rule of the claim returns `"projects"`
(three occurrences of `"project"` beat two education occurrences). -/
theorem claim_C9_occurrences_cex :
    classify_section (pys "x") (pys "education university project project project") ≠
      classify_section_claim (pys "x")
        (pys "education university project project project") := by
  decide

theorem pyMaxFold_spec {α} : ∀ (xs : List (α × Nat)) (x : α × Nat),
    (xs.foldl (fun best y => if y.2 > best.2 then y else best) x).2 =
      ((x :: xs).map Prod.snd).foldr max 0 ∧
    (x :: xs).find?
        (fun p => p.2 == (xs.foldl (fun best y => if y.2 > best.2 then y else best) x).2) =
      some (xs.foldl (fun best y => if y.2 > best.2 then y else best) x) := by
  intro xs
  induction xs with
  | nil =>
    intro x
    refine ⟨by simp, ?_⟩
    simp [List.find?]
  | cons y ys ih =>
    intro x
    by_cases hyx : y.2 > x.2
    · have hstep : (y :: ys).foldl (fun best y => if y.2 > best.2 then y else best) x =
          ys.foldl (fun best y => if y.2 > best.2 then y else best) y := by
        simp [List.foldl_cons, hyx]
      rcases ih y with ⟨ihm, ihf⟩
      constructor
      · rw [hstep, ihm]
        simp only [List.map_cons, List.foldr_cons]
        omega
      · rw [hstep]
        have hble : y.2 ≤ (ys.foldl (fun best y => if y.2 > best.2 then y else best) y).2 := by
          rw [ihm]; simp only [List.map_cons, List.foldr_cons]; exact le_max_left _ _
        rw [List.find?_cons_of_neg _ (by simp only [beq_iff_eq]; omega)]
        exact ihf
    · have hstep : (y :: ys).foldl (fun best y => if y.2 > best.2 then y else best) x =
          ys.foldl (fun best y => if y.2 > best.2 then y else best) x := by
        simp [List.foldl_cons, hyx]
      rcases ih x with ⟨ihm, ihf⟩
      have hxle : x.2 ≤ (ys.foldl (fun best y => if y.2 > best.2 then y else best) x).2 := by
        rw [ihm]; simp only [List.map_cons, List.foldr_cons]; exact le_max_left _ _
      constructor
      · rw [hstep, ihm]
        simp only [List.map_cons, List.foldr_cons]
        omega
      · rw [hstep]
        by_cases hx : x.2 = (ys.foldl (fun best y => if y.2 > best.2 then y else best) x).2
        · rw [List.find?_cons_of_pos _ (by simpa using hx)]
          rw [List.find?_cons_of_pos _ (by simpa using hx)] at ihf
          exact ihf
        · rw [List.find?_cons_of_neg _ (by simpa using hx)]
          rw [List.find?_cons_of_neg _ (by simpa using hx)] at ihf
          rw [List.find?_cons_of_neg _ (by simp only [beq_iff_eq]; omega)]
          exact ihf

/-- **C9, amended.** `classify_section` implements the claimed rule with
membership scoring: the coursework special case, per-type scores counting
each keyword of the type at most once, first maximum in fixed table order,
and `other` exactly when the maximum score is 0. -/
theorem claim_C9_classify_amended :
    ∀ header content, classify_section header content = classify_section_spec header content := by
  intro header content
  unfold classify_section classify_section_spec
  by_cases hcw : isSubstr (pys "coursework") (pyLower header) = true
  · simp only [hcw, if_true]
  · simp only [Bool.not_eq_true] at hcw
    simp only [hcw, Bool.false_eq_true, if_false]
    cases hs : SECTION_KEYWORDS.map
        (fun p => (p.1, p.2.countP
          (fun k => isSubstr k (pyLower (header ++ pys " " ++ content))))) with
    | nil => simp [pyMaxByVal]
    | cons x xs =>
      rcases pyMaxFold_spec xs x with ⟨hm, hf⟩
      simp only [pyMaxByVal, ← hm, hf]
      by_cases hz : (xs.foldl (fun best y => if y.2 > best.2 then y else best) x).2 = 0
      · simp [hz]
      · simp [hz, Nat.pos_of_ne_zero hz]

/-! ## Experience-level detection (`src/app/services/resume_parser.py`)

The regex cues of `detect_experience_level` are modelled by executable
scanners.  Optional regex groups (`(?:...)?`) are modelled by trying the
pattern both with and without the group, which has the same boolean result
as the backtracking engine; greedy repetitions (`\d+`, `\s+`, `\s*`) are
modelled by maximal runs, exact here because no following pattern element
can match a character of the run. -/

/-- Regex word character `\w` (ASCII, the inputs handled by the source). -/
def isWordChar (c : Char) : Bool := c.isAlpha || c.isDigit || c = '_'

/-- Consume a literal from the front of the text. -/
def dropLit (lit s : List Char) : Option (List Char) :=
  if lit.isPrefixOf s then some (s.drop lit.length) else none

/-- Consume `\s+` (at least one whitespace character, maximal run). -/
def dropWS1 : List Char → Option (List Char)
  | c :: t => if pyIsSpace c then some (t.dropWhile pyIsSpace) else none
  | [] => none

/-- Consume `\s*`. -/
def dropWS0 (s : List Char) : List Char := s.dropWhile pyIsSpace

/-- Does one of the literals start here? -/
def tryLits (lits : List (List Char)) (s : List Char) : Bool :=
  lits.any (fun l => (dropLit l s).isSome)

def reSearchWBGo (tryA : List Char → Bool) : Option Char → List Char → Bool
  | _, [] => false
  | prev, c :: t =>
    ((match prev with | none => true | some p => !isWordChar p) && tryA (c :: t))
      || reSearchWBGo tryA (some c) t

/-- `re.search` for a pattern beginning with `\b` followed by a word
character: try the pattern at every position whose preceding character is
absent or not a word character. -/
def reSearchWB (tryA : List Char → Bool) (s : List Char) : Bool :=
  reSearchWBGo tryA none s

/-- `current(ly)?\s+(?:studying|pursuing|enrolled)` at this position. -/
def tryCurrentStudying (s : List Char) : Bool :=
  match dropLit (pys "current") s with
  | none => false
  | some r =>
    let tail := fun r' => match dropWS1 r' with
      | none => false
      | some r'' => tryLits [pys "studying", pys "pursuing", pys "enrolled"] r''
    (match dropLit (pys "ly") r with | some r2 => tail r2 | none => false) || tail r

/-- `(?:undergraduate|bachelor|btech|b\.tech)\s+student` at this position. -/
def tryDegreeStudent (s : List Char) : Bool :=
  [pys "undergraduate", pys "bachelor", pys "btech", pys "b.tech"].any fun lit =>
    match dropLit lit s with
    | none => false
    | some r => match dropWS1 r with
      | none => false
      | some r' => (dropLit (pys "student") r').isSome

/-- `expected\s+graduation` at this position. -/
def tryExpectedGraduation (s : List Char) : Bool :=
  match dropLit (pys "expected") s with
  | none => false
  | some r => match dropWS1 r with
    | none => false
    | some r' => (dropLit (pys "graduation") r').isSome

/-- `seek(?:ing)?\s+internship` at this position. -/
def trySeekInternship (s : List Char) : Bool :=
  match dropLit (pys "seek") s with
  | none => false
  | some r =>
    let tail := fun r' => match dropWS1 r' with
      | none => false
      | some r'' => (dropLit (pys "internship") r'').isSome
    (match dropLit (pys "ing") r with | some r2 => tail r2 | none => false) || tail r

/-- `fresher\b` at this position. -/
def tryFresher (s : List Char) : Bool :=
  match dropLit (pys "fresher") s with
  | none => false
  | some r => match r with
    | [] => true
    | c :: _ => !isWordChar c

/-- `cgpa\s*[:=]\s*\d` at this position. -/
def tryCgpa (s : List Char) : Bool :=
  match dropLit (pys "cgpa") s with
  | none => false
  | some r =>
    match dropWS0 r with
    | c :: t => (c = ':' || c = '=') &&
        (match dropWS0 t with | d :: _ => d.isDigit | [] => false)
    | [] => false

/-- `seek(?:ing)?\s+(?:summer\s+)?internship` at this position. -/
def trySeekSummerInternship (s : List Char) : Bool :=
  match dropLit (pys "seek") s with
  | none => false
  | some r =>
    let afterWS := fun r' => match dropWS1 r' with
      | none => false
      | some r'' =>
        (match dropLit (pys "summer") r'' with
         | some r3 => match dropWS1 r3 with
           | some r4 => (dropLit (pys "internship") r4).isSome
           | none => false
         | none => false)
        || (dropLit (pys "internship") r'').isSome
    (match dropLit (pys "ing") r with | some r2 => afterWS r2 | none => false) || afterWS r

/-- `intern(?:ship)?\s+(?:position|role|opportunity)` at this position. -/
def tryInternPosition (s : List Char) : Bool :=
  match dropLit (pys "intern") s with
  | none => false
  | some r =>
    let tail := fun r' => match dropWS1 r' with
      | none => false
      | some r'' => tryLits [pys "position", pys "role", pys "opportunity"] r''
    (match dropLit (pys "ship") r with | some r2 => tail r2 | none => false) || tail r

/-- `summer\s+(?:intern|internship)` at this position. -/
def trySummerIntern (s : List Char) : Bool :=
  match dropLit (pys "summer") s with
  | none => false
  | some r => match dropWS1 r with
    | none => false
    | some r' => (dropLit (pys "intern") r').isSome || (dropLit (pys "internship") r').isSome

/-- The `student_indicators` disjunction of `detect_experience_level`. -/
def studentIndicators (text_lower : List Char) : Bool :=
  reSearchWB tryCurrentStudying text_lower || reSearchWB tryDegreeStudent text_lower ||
  reSearchWB tryExpectedGraduation text_lower || reSearchWB trySeekInternship text_lower ||
  reSearchWB tryFresher text_lower || reSearchWB tryCgpa text_lower

/-- The `internship_indicators` disjunction of `detect_experience_level`. -/
def internshipIndicators (text_lower : List Char) : Bool :=
  reSearchWB trySeekSummerInternship text_lower ||
  reSearchWB tryInternPosition text_lower || reSearchWB trySummerIntern text_lower

/-- Numeric value of a run of ASCII digits. -/
def natOfDigits (ds : List Char) : Nat := ds.foldl (fun n c => n * 10 + (c.toNat - 48)) 0

/-- Tail of `(\d+)\+?\s*years?\s+(?:of\s+)?experience` after the digit run. -/
def tryYearsTail (r : List Char) : Bool :=
  let r1 := match r with | '+' :: t => t | _ => r
  let r2 := dropWS0 r1
  match dropLit (pys "year") r2 with
  | none => false
  | some r3 =>
    let tail := fun r' => match dropWS1 r' with
      | none => false
      | some r'' =>
        (match dropLit (pys "of") r'' with
         | some r4 => match dropWS1 r4 with
           | some r5 => (dropLit (pys "experience") r5).isSome
           | none => false
         | none => false)
        || (dropLit (pys "experience") r'').isSome
    (match dropLit (pys "s") r3 with | some r4 => tail r4 | none => false) || tail r3

/-- `re.search` for `(\d+)\+?\s*years?\s+(?:of\s+)?experience`: value of the
captured group of the leftmost match. -/
def scanYearsExperience : List Char → Option Nat
  | [] => none
  | c :: t =>
    if c.isDigit then
      let ds := (c :: t).takeWhile Char.isDigit
      if tryYearsTail ((c :: t).drop ds.length) then some (natOfDigits ds)
      else scanYearsExperience t
    else scanYearsExperience t

/-- `experience\s*:\s*(\d+)\+?\s*years?` at this position: value of the
captured group. -/
def tryExpColonYears (s : List Char) : Option Nat :=
  match dropLit (pys "experience") s with
  | none => none
  | some r =>
    match dropWS0 r with
    | ':' :: t =>
      let r2 := dropWS0 t
      let ds := r2.takeWhile Char.isDigit
      if ds.isEmpty then none
      else
        let r3 := r2.drop ds.length
        let r4 := match r3 with | '+' :: t2 => t2 | _ => r3
        let r5 := dropWS0 r4
        if (dropLit (pys "year") r5).isSome then some (natOfDigits ds) else none
    | _ => none

/-- `re.search` for the second years pattern: leftmost match value. -/
def scanExpColonYears : List Char → Option Nat
  | [] => none
  | c :: t =>
    match tryExpColonYears (c :: t) with
    | some n => some n
    | none => scanExpColonYears t

/-- `re.search(r'20(\d{2})', ...)`: the leftmost four-character `20dd` run,
as the full year `2000 + dd`. -/
def findGradYear : List Char → Option Nat
  | '2' :: '0' :: d1 :: d2 :: rest =>
    if d1.isDigit && d2.isDigit then some (2000 + 10 * (d1.toNat - 48) + (d2.toNat - 48))
    else findGradYear ('0' :: d1 :: d2 :: rest)
  | _ :: t => findGradYear t
  | [] => none

/-- An education record as read by `detect_experience_level`
(`edu.get('degree', '')` and `edu.get('details', '')`). -/
structure EduRecord where
  degree : List Char
  details : List Char
deriving DecidableEq

/-- The `ExperienceLevelInfo` dictionary returned by
`detect_experience_level`. -/
structure ExperienceInfo where
  level : List Char
  years_experience : Nat
  is_student : Bool
  seeking_internship : Bool
deriving DecidableEq

/-- From `src/app/services/resume_parser.py`, `detect_experience_level`:
detect student and internship cues on the lowercased text, extract years of
experience from the first matching pattern (first pattern wins), re-inspect
the education entries for a graduation year at least `current_year - 1`
(`current_year` is the literal 2026 in the source) when student-like or
zero years, and bucket. -/
def detect_experience_level (text : List Char) (education : List EduRecord) : ExperienceInfo :=
  let text_lower := pyLower text
  let is_student0 := studentIndicators text_lower
  let seeking0 := internshipIndicators text_lower
  let years_experience := match scanYearsExperience text_lower with
    | some n => n
    | none => (scanExpColonYears text_lower).getD 0
  let p : Bool × Bool :=
    if is_student0 || years_experience == 0 then
      education.foldl (fun q edu =>
        match findGradYear (edu.degree ++ pys " " ++ edu.details) with
        | some grad_year =>
          if grad_year ≥ 2026 - 1 then (true, q.2 || decide (grad_year > 2026)) else q
        | none => q) (is_student0, seeking0)
    else (is_student0, seeking0)
  { level :=
      if p.1 || p.2 then pys "student"
      else if years_experience == 0 then pys "entry"
      else if years_experience ≤ 2 then pys "entry"
      else if years_experience ≤ 5 then pys "mid"
      else if years_experience ≤ 8 then pys "senior"
      else pys "lead"
    years_experience := years_experience
    is_student := p.1
    seeking_internship := p.2 }

/-- The years-to-bucket table exactly as the claim words it. -/
def claim_years_bucket (y : Nat) : List Char :=
  if y = 0 then pys "entry"
  else if 1 ≤ y ∧ y ≤ 2 then pys "entry"
  else if 3 ≤ y ∧ y ≤ 5 then pys "mid"
  else if 6 ≤ y ∧ y ≤ 8 then pys "senior"
  else pys "lead"

theorem source_bucket_eq_claim_bucket (y : Nat) :
    (if y == 0 then pys "entry"
     else if y ≤ 2 then pys "entry"
     else if y ≤ 5 then pys "mid"
     else if y ≤ 8 then pys "senior"
     else pys "lead") = claim_years_bucket y := by
  unfold claim_years_bucket
  simp only [beq_iff_eq]
  split_ifs <;> first | rfl | omega

theorem level_shape (p : Bool × Bool) (y : Nat) :
    (p.1 = true ∨ p.2 = true →
      (if p.1 || p.2 then pys "student"
       else if y == 0 then pys "entry"
       else if y ≤ 2 then pys "entry"
       else if y ≤ 5 then pys "mid"
       else if y ≤ 8 then pys "senior"
       else pys "lead") = pys "student") ∧
    (p.1 = false → p.2 = false →
      (if p.1 || p.2 then pys "student"
       else if y == 0 then pys "entry"
       else if y ≤ 2 then pys "entry"
       else if y ≤ 5 then pys "mid"
       else if y ≤ 8 then pys "senior"
       else pys "lead") = claim_years_bucket y) := by
  constructor
  · intro h
    rcases h with h | h <;> simp [h]
  · intro h1 h2
    rw [if_neg (by simp [h1, h2])]
    exact source_bucket_eq_claim_bucket y

/-- **C8.** The final experience bucket is `student` whenever the returned
`is_student` or `seeking_internship` flag holds, and otherwise is determined
solely by `years_experience` through the claimed table (0 → entry, 1-2 →
entry, 3-5 → mid, 6-8 → senior, more than 8 → lead). -/
theorem claim_C8_experience_bucketing :
    ∀ (text : List Char) (education : List EduRecord),
      ((detect_experience_level text education).is_student = true ∨
        (detect_experience_level text education).seeking_internship = true →
        (detect_experience_level text education).level = pys "student") ∧
      ((detect_experience_level text education).is_student = false →
        (detect_experience_level text education).seeking_internship = false →
        (detect_experience_level text education).level =
          claim_years_bucket (detect_experience_level text education).years_experience) := by
  intro text education
  exact level_shape _ _

/-- Witness for C8 at the examples of the claim: a resume announcing
six years of experience with no student signals lands in `senior`, and a
resume seeking an internship lands in `student`. -/
theorem claim_C8_experience_bucketing_witness :
    (detect_experience_level (pys "I have 6 years experience in data") []).level =
        claim_years_bucket
          (detect_experience_level (pys "I have 6 years experience in data") []).years_experience ∧
    (detect_experience_level (pys "Seeking internship position") []).level = pys "student" :=
  ⟨(claim_C8_experience_bucketing (pys "I have 6 years experience in data") []).2
      (by decide) (by decide),
   (claim_C8_experience_bucketing (pys "Seeking internship position") []).1
      (Or.inr (by decide))⟩

/-! ## Job fetcher (`src/app/services/job_fetcher.py`,
`src/app/services/job_cleaner.py`)

JSON values occurring in raw job records are modelled by `PyVal`; a raised
exception inside `_normalize_job` is the `Except.error` path. -/

/-- A JSON value of a raw job field. -/
inductive PyVal where
  | vstr (s : List Char)
  | vnone
  | vint (n : Int)
  | vbool (b : Bool)
deriving DecidableEq

/-- Python truthiness of a `PyVal`. -/
def pyTruthy : PyVal → Bool
  | .vstr s => !s.isEmpty
  | .vnone => false
  | .vint n => n != 0
  | .vbool b => b

/-- `.lower()` on a value: raises (`error`) unless it is a string. -/
def pyValLower : PyVal → Except Unit (List Char)
  | .vstr s => .ok (pyLower s)
  | _ => .error ()

/-- String extraction for `join`: raises unless every element is a string. -/
def traverseStrs : List PyVal → Except Unit (List (List Char))
  | [] => .ok []
  | .vstr s :: t => do
    let r ← traverseStrs t
    .ok (s :: r)
  | _ :: _ => .error ()

/-- The `job_highlights` field: absent (treated as `{}`), JSON null (whose
`.get` raises), or a dict with its `Qualifications` list (absent key is the
empty list). -/
inductive HighlightsVal where
  | absent
  | hnone
  | hdict (qualifications : List PyVal)
deriving DecidableEq

/-- A raw job record from one page of the external search response; `none`
fields are absent keys. -/
structure RawJob where
  job_id : Option PyVal
  job_title : Option PyVal
  employer_name : Option PyVal
  job_description : Option PyVal
  job_employment_type : Option PyVal
  job_apply_link : Option PyVal
  job_posted_at_datetime_utc : Option PyVal
  job_min_salary : Option PyVal
  job_max_salary : Option PyVal
  job_is_remote : Option PyVal
  job_city : Option PyVal
  job_state : Option PyVal
  job_country : Option PyVal
  job_highlights : HighlightsVal
deriving DecidableEq

/-- `raw_job.get(key, default)`. -/
def rawGet (v : Option PyVal) (d : PyVal) : PyVal := v.getD d

/-- `JobFetcher._format_location`: join the truthy parts of city, state,
country with `", "` (raises when a truthy part is not a string), or
`"Remote"` when all are falsy. -/
def format_location (r : RawJob) : Except Unit (List Char) :=
  let city := rawGet r.job_city (.vstr [])
  let state := rawGet r.job_state (.vstr [])
  let country := rawGet r.job_country (.vstr [])
  let parts := [city, state, country].filter pyTruthy
  if parts.isEmpty then .ok (pys "Remote")
  else do
    let ss ← traverseStrs parts
    .ok (List.intercalate (pys ", ") ss)

/-- `JobFetcher._extract_requirements`: `Qualifications` joined with
newlines; raises when `job_highlights` is null (attribute access on `None`)
or a qualification entry is not a string. -/
def extract_requirements (r : RawJob) : Except Unit (List Char) :=
  match r.job_highlights with
  | .hnone => .error ()
  | .absent => .ok []
  | .hdict quals =>
    if quals.isEmpty then .ok []
    else do
      let ss ← traverseStrs quals
      .ok (List.intercalate (pys "\n") ss)

/-- From `src/app/services/job_cleaner.py`, `JobCleaner.classify_job_level`:
student keywords in the title, else entry keywords in title+description,
else senior keywords in the title, else lead keywords in the title, else
`mid`; raises when title or description is not a string. -/
def classify_job_level (title description : PyVal) : Except Unit (List Char) := do
  let t ← pyValLower title
  let d ← pyValLower description
  let text := t ++ pys " " ++ d
  if [pys "intern", pys "internship", pys "student", pys "co-op"].any
      (fun k => isSubstr k t) then
    .ok (pys "student")
  else if [pys "junior", pys "entry", pys "graduate", pys "associate", pys "new grad",
      pys "0-2 years"].any (fun k => isSubstr k text) then
    .ok (pys "entry")
  else if [pys "senior", pys "sr.", pys "sr ", pys "lead", pys "principal", pys "staff",
      pys "7+ years", pys "8+ years"].any (fun k => isSubstr k t) then
    .ok (pys "senior")
  else if [pys "lead", pys "principal", pys "staff", pys "architect", pys "director",
      pys "10+ years"].any (fun k => isSubstr k t) then
    .ok (pys "lead")
  else
    .ok (pys "mid")

/-- The dictionary built by `JobFetcher._normalize_job` on success (the
`raw` self-copy is never read by the modelled paths and is omitted). -/
structure NormJob where
  id : PyVal
  title : PyVal
  company : PyVal
  location : List Char
  description : PyVal
  requirements : List Char
  employment_type : PyVal
  url : PyVal
  posted_date : PyVal
  min_salary : PyVal
  max_salary : PyVal
  is_remote : PyVal
  experience_level : List Char
deriving DecidableEq

/-- `JobFetcher._normalize_job`: build the normalized dictionary and label
it through `classify_job_level`; on any exception the source logs and
returns `None`. -/
def _normalize_job (r : RawJob) : Option NormJob :=
  match (do
    let location ← format_location r
    let requirements ← extract_requirements r
    let title := rawGet r.job_title (.vstr [])
    let description := rawGet r.job_description (.vstr [])
    let experience_level ← classify_job_level title description
    Except.ok
      { id := rawGet r.job_id (.vstr [])
        title := title
        company := rawGet r.employer_name (.vstr [])
        location := location
        description := description
        requirements := requirements
        employment_type := rawGet r.job_employment_type (.vstr (pys "FULLTIME"))
        url := rawGet r.job_apply_link (.vstr [])
        posted_date := rawGet r.job_posted_at_datetime_utc (.vstr [])
        min_salary := rawGet r.job_min_salary .vnone
        max_salary := rawGet r.job_max_salary .vnone
        is_remote := rawGet r.job_is_remote (.vbool false)
        experience_level := experience_level } : Except Unit NormJob) with
  | .ok j => some j
  | .error _ => none

/-- Outcome of fetching one page from the external source. -/
inductive PageResult where
  | ok (jobs : List RawJob)
  | timeout
  | httpError (status : Nat)
  | requestError
  | otherError
deriving DecidableEq

/-- `JobFetcher.fetch_jobs` page loop: each successful page extends the
accumulated list with `[self._normalize_job(job) for job in jobs]` (a map,
not a filter); timeouts, 5xx, request and unexpected errors skip the page;
429 stops pagination; any other HTTP error stops pagination. -/
def fetch_jobs : List PageResult → List (Option NormJob)
  | [] => []
  | .ok jobs :: rest => jobs.map _normalize_job ++ fetch_jobs rest
  | .timeout :: rest => fetch_jobs rest
  | .httpError s :: rest =>
    if s = 429 then [] else if s ≥ 500 then fetch_jobs rest else []
  | .requestError :: rest => fetch_jobs rest
  | .otherError :: rest => fetch_jobs rest

/-- A well-formed raw job record. -/
def rawJobGood : RawJob :=
  { job_id := some (.vstr (pys "g1"))
    job_title := some (.vstr (pys "Software Engineer"))
    employer_name := some (.vstr (pys "Acme"))
    job_description := some (.vstr (pys "Work on systems"))
    job_employment_type := some (.vstr (pys "FULLTIME"))
    job_apply_link := some (.vstr (pys "u"))
    job_posted_at_datetime_utc := some (.vstr (pys "2026-01-01"))
    job_min_salary := none
    job_max_salary := none
    job_is_remote := some (.vbool false)
    job_city := some (.vstr (pys "Pune"))
    job_state := some (.vstr (pys "MH"))
    job_country := some (.vstr (pys "India"))
    job_highlights := .hdict [.vstr (pys "Python")] }

/-- A malformed raw job record: the JSON has `"job_title": null`, so
`classify_job_level` calls `.lower()` on `None` and raises. -/
def rawJobBad : RawJob :=
  { job_id := some (.vstr (pys "b1"))
    job_title := some .vnone
    employer_name := some (.vstr (pys "Acme"))
    job_description := some (.vstr (pys "d"))
    job_employment_type := none
    job_apply_link := none
    job_posted_at_datetime_utc := none
    job_min_salary := none
    job_max_salary := none
    job_is_remote := none
    job_city := none
    job_state := none
    job_country := none
    job_highlights := .absent }

/-- **C4.** On a page containing a well-formed record followed by a record
whose `job_title` is JSON null, the fetch is not aborted (the well-formed
record is normalized and returned) but the malformed record is NOT skipped:
`fetch_jobs` returns a list whose second element is the `None` placeholder
that `_normalize_job` produced, contradicting the claim that every element
of the returned list is a well-formed normalized record. -/
theorem claim_C4_none_in_fetch_list :
    fetch_jobs [PageResult.ok [rawJobGood, rawJobBad]] =
      [_normalize_job rawJobGood, none] ∧
    (_normalize_job rawJobGood).isSome = true ∧
    none ∈ fetch_jobs [PageResult.ok [rawJobGood, rawJobBad]] := by
  decide

/-! ## Vector store and ranking scores (`src/app/services/vector_store.py`,
`src/app/services/job_service.py`)

Embedding vectors are modelled over `ℚ` (exact values of the real
computation).  `faiss.IndexFlatL2` with `faiss.normalize_L2` performs exact
nearest-neighbour search returning the k smallest SQUARED L2 distances of
the unit-normalized vectors in ascending order (ties in insertion order).
`normalize_L2` is the identity on unit vectors, so the models below take the
already-normalized vectors as inputs; theorems about them carry unit-norm
hypotheses.  This factors the irrational division-by-norm step, which is
common to the source path and to the cosine of the specification, out of
both sides. -/

/-- Dot product of two vectors. -/
def dotQ : List ℚ → List ℚ → ℚ
  | a :: as, b :: bs => a * b + dotQ as bs
  | _, _ => 0

/-- Sum of squares (squared L2 norm). -/
def sumSqQ (v : List ℚ) : ℚ := dotQ v v

/-- Squared L2 distance, as returned by `faiss.IndexFlatL2.search`. -/
def sqDistQ (a b : List ℚ) : ℚ := sumSqQ (List.zipWith (· - ·) a b)

/-- The metadata fields of an indexed job that the student-branch logic and
the filters read; the remaining dictionary fields do not influence any
modelled control flow. -/
structure VJob where
  id : List Char
  experience_level : List Char
deriving DecidableEq

/-- `VectorStore._matches_filters` for the only filter shape the call sites
build, `{"experience_level": value}`; `None` filters accept everything. -/
def matches_filters (j : VJob) (filt : Option (List Char)) : Bool :=
  match filt with
  | none => true
  | some lvl => j.experience_level == lvl

/-- Ascending order on (job, squared distance) pairs, the order of the
faiss result list. -/
def distLe (a b : VJob × ℚ) : Prop := a.2 ≤ b.2

instance : DecidableRel distLe := fun a b => by unfold distLe; infer_instance
instance : IsTotal (VJob × ℚ) distLe := ⟨fun a b => le_total a.2 b.2⟩
instance : IsTrans (VJob × ℚ) distLe := ⟨fun a _ _ => le_trans (a := a.2)⟩

/-- From `src/app/services/vector_store.py`, `VectorStore.search`: take the
k nearest stored vectors by squared L2 distance (the external faiss call),
then walk them in ascending-distance order, drop entries failing the
filters, and attach `similarity = 1 / (1 + dist)`.  (The source guard
`idx < len(self.job_metadata)` is always true when at least k vectors are
stored, the only regime the modelled call sites exercise.) -/
def vector_store_search (stored : List (VJob × List ℚ)) (query : List ℚ) (k : Nat)
    (filt : Option (List Char)) : List (VJob × ℚ) :=
  let ranked := (List.insertionSort distLe
    (stored.map (fun p => (p.1, sqDistQ query p.2)))).take k
  (ranked.filter (fun p => matches_filters p.1 filt)).map
    (fun p => (p.1, 1 / (1 + p.2)))

/-- The row-wise similarities of `JobService._rank_jobs`:
`np.dot(job_norms, resume_norm)` over the unit-normalized job matrix and
resume vector.  These values become the `match_score` of each job. -/
def rank_jobs_scores (jobNorms : List (List ℚ)) (resumeNorm : List ℚ) : List ℚ :=
  jobNorms.map (fun v => dotQ v resumeNorm)

/-- Modelled from the spec: cosine similarity, "computed by L2-normalizing
both vectors and taking their dot product", applied to the already
normalized profile and job vectors. -/
def cosine_spec (profileNorm jobNorm : List ℚ) : ℚ := dotQ profileNorm jobNorm

theorem dotQ_comm : ∀ a b : List ℚ, dotQ a b = dotQ b a
  | [], [] => rfl
  | [], _ :: _ => rfl
  | _ :: _, [] => rfl
  | a :: as, b :: bs => by
    simp only [dotQ, dotQ_comm as bs, mul_comm a b]

theorem sqDistQ_expand : ∀ (a b : List ℚ), a.length = b.length →
    sqDistQ a b = sumSqQ a + sumSqQ b - 2 * dotQ a b := by
  intro a
  induction a with
  | nil =>
    intro b hb
    cases b with
    | nil => simp [sqDistQ, sumSqQ, dotQ]
    | cons x xs => simp at hb
  | cons x xs ih =>
    intro b hb
    cases b with
    | nil => simp at hb
    | cons y ys =>
      simp only [List.length_cons, Nat.succ_inj] at hb
      have ihe := ih ys hb
      simp only [sqDistQ, sumSqQ, List.zipWith_cons_cons, dotQ] at ihe ⊢
      ring_nf
      ring_nf at ihe
      linarith

/-- **C6, counterexample.** A one-job index holding the unit vector (0,1)
queried with the unit vector (1,0): the cosine similarity of the two
embeddings is 0, but the vector-index search path attaches the score
`1 / (1 + squared distance) = 1/3` as the match score. -/
theorem claim_C6_vector_score_cex :
    vector_store_search [(⟨pys "j1", pys "mid"⟩, [(0 : ℚ), 1])] [(1 : ℚ), 0] 1 none =
      [(⟨pys "j1", pys "mid"⟩, 1 / 3)] ∧
    cosine_spec [(1 : ℚ), 0] [(0 : ℚ), 1] = 0 ∧
    sumSqQ [(1 : ℚ), 0] = 1 ∧ sumSqQ [(0 : ℚ), 1] = 1 ∧
    (1 / 3 : ℚ) ≠ 0 := by
  refine ⟨?_, by norm_num [cosine_spec, dotQ], by norm_num [sumSqQ, dotQ],
    by norm_num [sumSqQ, dotQ], by norm_num⟩
  norm_num [vector_store_search, sqDistQ, sumSqQ, dotQ, matches_filters,
    List.insertionSort, List.orderedInsert]

/-- **C6, amended.** On the `_rank_jobs` path every attached score is
exactly the cosine similarity (dot product of the L2-normalized vectors);
on the vector-index path every attached score is `1 / (1 + d)` with `d` the
squared L2 distance, which for unit vectors equals
`1 / (3 - 2 * cosine)` and is therefore not the cosine itself. -/
theorem claim_C6_score_amended :
    (∀ (jobNorms : List (List ℚ)) (resumeNorm : List ℚ),
      rank_jobs_scores jobNorms resumeNorm =
        jobNorms.map (fun v => cosine_spec resumeNorm v)) ∧
    (∀ (stored : List (VJob × List ℚ)) (query : List ℚ) (k : Nat)
      (filt : Option (List Char)),
      sumSqQ query = 1 →
      (∀ p ∈ stored, sumSqQ p.2 = 1 ∧ p.2.length = query.length) →
      ∀ js ∈ vector_store_search stored query k filt,
        ∃ v, (js.1, v) ∈ stored ∧ js.2 = 1 / (3 - 2 * cosine_spec query v)) := by
  constructor
  · intro jobNorms resumeNorm
    exact List.map_congr_left (fun v _ => dotQ_comm v resumeNorm)
  · intro stored query k filt hq hstored js hjs
    simp only [vector_store_search] at hjs
    rcases List.mem_map.mp hjs with ⟨p, hp, rfl⟩
    have hp1 : p ∈ (List.insertionSort distLe
        (stored.map (fun p => (p.1, sqDistQ query p.2)))).take k :=
      (List.mem_filter.mp hp).1
    have hp2 : p ∈ stored.map (fun p => (p.1, sqDistQ query p.2)) :=
      ((List.perm_insertionSort distLe _).mem_iff).mp (List.mem_of_mem_take hp1)
    rcases List.mem_map.mp hp2 with ⟨q, hqmem, rfl⟩
    rcases hstored q hqmem with ⟨hu, hl⟩
    refine ⟨q.2, by simpa using hqmem, ?_⟩
    have hd : sqDistQ query q.2 = 2 - 2 * dotQ query q.2 := by
      rw [sqDistQ_expand query q.2 hl.symm, hq, hu]; ring
    simp only [cosine_spec, hd]
    have h3 : (1 : ℚ) + (2 - 2 * dotQ query q.2) = 3 - 2 * dotQ query q.2 := by ring
    rw [h3]

/-- Witness for C6 (amended), vector path: the score attached for the unit
job vector (0,1) under the unit query (1,0) is `1 / (3 - 2 * cosine)`. -/
theorem claim_C6_score_amended_witness :
    ∃ v, ((⟨pys "j1", pys "mid"⟩ : VJob), v) ∈ [((⟨pys "j1", pys "mid"⟩ : VJob), [(0 : ℚ), 1])] ∧
      (1 / 3 : ℚ) = 1 / (3 - 2 * cosine_spec [(1 : ℚ), 0] v) :=
  claim_C6_score_amended.2 [(⟨pys "j1", pys "mid"⟩, [(0 : ℚ), 1])] [(1 : ℚ), 0] 1 none
    (by simp [sumSqQ, dotQ]) (by simp [sumSqQ, dotQ]) (⟨pys "j1", pys "mid"⟩, 1 / 3)
    (by norm_num [vector_store_search, sqDistQ, sumSqQ, dotQ, matches_filters,
      List.insertionSort, List.orderedInsert])

/-! ## Student-bucket ranking (`src/scripts/search_resume.py` lines 93-108,
`src/app/api/jobs.py` lines 76-89) -/

/-- Descending order by score, the order of
`sorted(results, key=lambda x: x[1], reverse=True)`. -/
def scoreDesc (a b : VJob × ℚ) : Prop := b.2 ≤ a.2

instance : DecidableRel scoreDesc := fun a b => by unfold scoreDesc; infer_instance
instance : IsTotal (VJob × ℚ) scoreDesc := ⟨fun a b => le_total b.2 a.2⟩
instance : IsTrans (VJob × ℚ) scoreDesc :=
  ⟨fun _ _ _ h₁ h₂ => le_trans h₂ h₁⟩

/-- The student branch of `src/scripts/search_resume.py` (lines 93-108):
search the index for the 15 nearest with a `student` post-filter and the 5
nearest with an `entry` post-filter, concatenate, sort by score descending,
truncate to 10. -/
def search_resume_student_results (stored : List (VJob × List ℚ))
    (emb : List ℚ) : List (VJob × ℚ) :=
  let results_intern := vector_store_search stored emb 15 (some (pys "student"))
  let results_entry := vector_store_search stored emb 5 (some (pys "entry"))
  (List.insertionSort scoreDesc (results_intern ++ results_entry)).take 10

/-- The student branch of `src/app/api/jobs.py` (lines 76-89): the intern
search uses `k = top_k` and the final truncation uses `top_k`. -/
def api_student_results (stored : List (VJob × List ℚ)) (emb : List ℚ)
    (top_k : Nat) : List (VJob × ℚ) :=
  let results_intern := vector_store_search stored emb top_k (some (pys "student"))
  let results_entry := vector_store_search stored emb 5 (some (pys "entry"))
  (List.insertionSort scoreDesc (results_intern ++ results_entry)).take top_k

theorem vector_store_search_length_le (stored : List (VJob × List ℚ)) (query : List ℚ)
    (k : Nat) (filt : Option (List Char)) :
    (vector_store_search stored query k filt).length ≤ k := by
  unfold vector_store_search
  simp only [List.length_map]
  refine le_trans (List.length_filter_le _ _) ?_
  simp only [List.length_take]
  exact min_le_left _ _

theorem vector_store_search_level (stored : List (VJob × List ℚ)) (query : List ℚ)
    (k : Nat) (lvl : List Char) :
    ∀ p ∈ vector_store_search stored query k (some lvl), p.1.experience_level = lvl := by
  intro p hp
  simp only [vector_store_search] at hp
  rcases List.mem_map.mp hp with ⟨q, hq, rfl⟩
  have := (List.mem_filter.mp hq).2
  simpa [matches_filters] using this

/-- **C7, amended.** On both student-branch call sites the engine gathers a
student pool of at most 15 (script) or `top_k` (API) nearest-neighbour
results post-filtered to `student`-level jobs and an entry pool of at most
5 post-filtered to `entry`-level jobs, concatenates the pools, sorts by
score descending and truncates (to 10, resp. `top_k`); every returned
element comes from one of the two pools.  Because the filters are applied
after the nearest-neighbour truncation, a pool can hold fewer jobs than the
index does, and the final list need not draw from both buckets. -/
theorem claim_C7_student_branch_amended :
    ∀ (stored : List (VJob × List ℚ)) (emb : List ℚ) (top_k : Nat),
      (search_resume_student_results stored emb).length ≤ 10 ∧
      List.Sorted scoreDesc (search_resume_student_results stored emb) ∧
      (vector_store_search stored emb 15 (some (pys "student"))).length ≤ 15 ∧
      (vector_store_search stored emb 5 (some (pys "entry"))).length ≤ 5 ∧
      (∀ p ∈ vector_store_search stored emb 15 (some (pys "student")),
        p.1.experience_level = pys "student") ∧
      (∀ p ∈ vector_store_search stored emb 5 (some (pys "entry")),
        p.1.experience_level = pys "entry") ∧
      (∀ p ∈ search_resume_student_results stored emb,
        p ∈ vector_store_search stored emb 15 (some (pys "student")) ∨
        p ∈ vector_store_search stored emb 5 (some (pys "entry"))) ∧
      (api_student_results stored emb top_k).length ≤ top_k ∧
      List.Sorted scoreDesc (api_student_results stored emb top_k) ∧
      (∀ p ∈ api_student_results stored emb top_k,
        p ∈ vector_store_search stored emb top_k (some (pys "student")) ∨
        p ∈ vector_store_search stored emb 5 (some (pys "entry"))) := by
  intro stored emb top_k
  refine ⟨?_, ?_, vector_store_search_length_le _ _ _ _,
    vector_store_search_length_le _ _ _ _,
    vector_store_search_level _ _ _ _, vector_store_search_level _ _ _ _,
    ?_, ?_, ?_, ?_⟩
  · simp only [search_resume_student_results, List.length_take]
    exact min_le_left _ _
  · exact (List.sorted_insertionSort scoreDesc _).sublist (List.take_sublist _ _)
  · intro p hp
    simp only [search_resume_student_results] at hp
    have := ((List.perm_insertionSort scoreDesc _).mem_iff).mp (List.mem_of_mem_take hp)
    exact List.mem_append.mp this
  · simp only [api_student_results, List.length_take]
    exact min_le_left _ _
  · exact (List.sorted_insertionSort scoreDesc _).sublist (List.take_sublist _ _)
  · intro p hp
    simp only [api_student_results] at hp
    have := ((List.perm_insertionSort scoreDesc _).mem_iff).mp (List.mem_of_mem_take hp)
    exact List.mem_append.mp this

/-- A 20-job index instantiating the student-fallback scenario: 12
`student`-level and 8 `entry`-level jobs, all unit vectors, the 12 student
vectors strictly nearer to the query (1,0) than every entry vector. -/
def stored20 : List (VJob × List ℚ) :=
  [(⟨pys "s1", pys "student"⟩, [(220 : ℚ) / 221, 21 / 221]),
   (⟨pys "s2", pys "student"⟩, [(399 : ℚ) / 401, 40 / 401]),
   (⟨pys "s3", pys "student"⟩, [(180 : ℚ) / 181, 19 / 181]),
   (⟨pys "s4", pys "student"⟩, [(323 : ℚ) / 325, 36 / 325]),
   (⟨pys "s5", pys "student"⟩, [(144 : ℚ) / 145, 17 / 145]),
   (⟨pys "s6", pys "student"⟩, [(255 : ℚ) / 257, 32 / 257]),
   (⟨pys "s7", pys "student"⟩, [(112 : ℚ) / 113, 15 / 113]),
   (⟨pys "s8", pys "student"⟩, [(195 : ℚ) / 197, 28 / 197]),
   (⟨pys "s9", pys "student"⟩, [(84 : ℚ) / 85, 13 / 85]),
   (⟨pys "s10", pys "student"⟩, [(143 : ℚ) / 145, 24 / 145]),
   (⟨pys "s11", pys "student"⟩, [(60 : ℚ) / 61, 11 / 61]),
   (⟨pys "s12", pys "student"⟩, [(99 : ℚ) / 101, 20 / 101]),
   (⟨pys "e1", pys "entry"⟩, [(40 : ℚ) / 41, 9 / 41]),
   (⟨pys "e2", pys "entry"⟩, [(63 : ℚ) / 65, 16 / 65]),
   (⟨pys "e3", pys "entry"⟩, [(24 : ℚ) / 25, 7 / 25]),
   (⟨pys "e4", pys "entry"⟩, [(35 : ℚ) / 37, 12 / 37]),
   (⟨pys "e5", pys "entry"⟩, [(12 : ℚ) / 13, 5 / 13]),
   (⟨pys "e6", pys "entry"⟩, [(15 : ℚ) / 17, 8 / 17]),
   (⟨pys "e7", pys "entry"⟩, [(4 : ℚ) / 5, 3 / 5]),
   (⟨pys "e8", pys "entry"⟩, [(3 : ℚ) / 5, 4 / 5]) ]

/-- The (job, squared distance) pairs of `stored20` against the query
(1,0), in stored order (already ascending). -/
def dists20 : List (VJob × ℚ) :=
  [(⟨pys "s1", pys "student"⟩, (2 : ℚ) / 221),
   (⟨pys "s2", pys "student"⟩, (4 : ℚ) / 401),
   (⟨pys "s3", pys "student"⟩, (2 : ℚ) / 181),
   (⟨pys "s4", pys "student"⟩, (4 : ℚ) / 325),
   (⟨pys "s5", pys "student"⟩, (2 : ℚ) / 145),
   (⟨pys "s6", pys "student"⟩, (4 : ℚ) / 257),
   (⟨pys "s7", pys "student"⟩, (2 : ℚ) / 113),
   (⟨pys "s8", pys "student"⟩, (4 : ℚ) / 197),
   (⟨pys "s9", pys "student"⟩, (2 : ℚ) / 85),
   (⟨pys "s10", pys "student"⟩, (4 : ℚ) / 145),
   (⟨pys "s11", pys "student"⟩, (2 : ℚ) / 61),
   (⟨pys "s12", pys "student"⟩, (4 : ℚ) / 101),
   (⟨pys "e1", pys "entry"⟩, (2 : ℚ) / 41),
   (⟨pys "e2", pys "entry"⟩, (4 : ℚ) / 65),
   (⟨pys "e3", pys "entry"⟩, (2 : ℚ) / 25),
   (⟨pys "e4", pys "entry"⟩, (4 : ℚ) / 37),
   (⟨pys "e5", pys "entry"⟩, (2 : ℚ) / 13),
   (⟨pys "e6", pys "entry"⟩, (4 : ℚ) / 17),
   (⟨pys "e7", pys "entry"⟩, (2 : ℚ) / 5),
   (⟨pys "e8", pys "entry"⟩, (4 : ℚ) / 5) ]

/-- **C7, counterexample.** An instance of the documented scenario — 12
`student`-level and 8 `entry`-level candidates, every candidate scoring
above 0.5, `top_k = 10` — on which the script student branch (i) gathers 12
student-level jobs (not at most 10), because its intern search requests the
15 nearest, and (ii) returns 10 jobs that are all student-level, because
the 5 nearest neighbours of the entry search are all student jobs and the
post-filter leaves the entry pool empty, so the result is not drawn from
both buckets. -/
theorem claim_C7_student_branch_cex :
    ((stored20.filter (fun p => p.1.experience_level == pys "student")).length = 12) ∧
    ((stored20.filter (fun p => p.1.experience_level == pys "entry")).length = 8) ∧
    (∀ p ∈ stored20, sumSqQ p.2 = 1 ∧ 1 / (1 + sqDistQ [(1 : ℚ), 0] p.2) > 1 / 2) ∧
    ((vector_store_search stored20 [(1 : ℚ), 0] 15 (some (pys "student"))).length = 12) ∧
    (vector_store_search stored20 [(1 : ℚ), 0] 5 (some (pys "entry")) = []) ∧
    ((search_resume_student_results stored20 [(1 : ℚ), 0]).length = 10) ∧
    (∀ p ∈ search_resume_student_results stored20 [(1 : ℚ), 0],
      p.1.experience_level = pys "student") := by
  have hss : (pys "student" == pys "student") = true := by decide
  have hee : (pys "entry" == pys "entry") = true := by decide
  have hes : (pys "entry" == pys "student") = false := by decide
  have hse : (pys "student" == pys "entry") = false := by decide
  have hmap : stored20.map (fun p => (p.1, sqDistQ [(1 : ℚ), 0] p.2)) = dists20 := by
    norm_num [stored20, dists20, sqDistQ, sumSqQ, dotQ,
      List.zipWith_cons_cons, List.zipWith_nil_left]
  have hsorted : List.Pairwise distLe dists20 := by
    apply List.chain'_iff_pairwise.mp
    norm_num [dists20, List.chain'_cons, List.chain'_singleton, distLe]
  have hsort_eq : List.insertionSort distLe dists20 = dists20 :=
    List.Sorted.insertionSort_eq hsorted
  have hintern : (vector_store_search stored20 [(1 : ℚ), 0] 15 (some (pys "student"))).length
      = 12 := by
    simp only [vector_store_search, hmap, hsort_eq, matches_filters, List.length_map]
    norm_num [dists20, List.take_succ_cons, List.take_zero, List.filter_cons, hss, hes]
  have hentry : vector_store_search stored20 [(1 : ℚ), 0] 5 (some (pys "entry")) = [] := by
    simp only [vector_store_search, hmap, hsort_eq, matches_filters]
    norm_num [dists20, List.take_succ_cons, List.take_zero, List.filter_cons, hse]
  refine ⟨?_, ?_, ?_, hintern, hentry, ?_, ?_⟩
  · norm_num [stored20, List.filter_cons, hss, hes]
  · norm_num [stored20, List.filter_cons, hse, hee]
  · norm_num [stored20, sumSqQ, sqDistQ, dotQ,
      List.zipWith_cons_cons, List.zipWith_nil_left]
  · simp only [search_resume_student_results, hentry, List.append_nil, List.length_take]
    rw [(List.perm_insertionSort scoreDesc _).length_eq, hintern]
    omega
  · intro p hp
    simp only [search_resume_student_results, hentry, List.append_nil] at hp
    have hp2 := (List.perm_insertionSort scoreDesc _).mem_iff.mp (List.mem_of_mem_take hp)
    exact vector_store_search_level _ _ _ _ p hp2

/-! ## Heading detection and section splitting
(`src/app/services/heading_detector.py`,
`src/app/services/section_splitter.py`) -/

/-- ASCII uppercase letter (the cased characters of the inputs). -/
def isUpperAlpha (c : Char) : Bool := 'A' ≤ c && c ≤ 'Z'

/-- ASCII lowercase letter. -/
def isLowerAlpha (c : Char) : Bool := 'a' ≤ c && c ≤ 'z'

/-- Python `str.split()` with no argument: split on whitespace runs,
dropping empty pieces (used for word counting). -/
def pySplitWSAux : List Char → List Char → List (List Char)
  | [], acc => if acc.isEmpty then [] else [acc.reverse]
  | c :: t, acc =>
    if pyIsSpace c then
      if acc.isEmpty then pySplitWSAux t [] else acc.reverse :: pySplitWSAux t []
    else pySplitWSAux t (c :: acc)

def pySplitWS (s : List Char) : List (List Char) := pySplitWSAux s []

/-- Python `str.isupper()` over ASCII: at least one uppercase letter and no
lowercase letter. -/
def pyIsUpper (s : List Char) : Bool := s.any isUpperAlpha && !(s.any isLowerAlpha)

def pyIsTitleAux : Bool → Bool → List Char → Bool
  | _, found, [] => found
  | prevCased, found, c :: t =>
    if isUpperAlpha c then
      if prevCased then false else pyIsTitleAux true true t
    else if isLowerAlpha c then
      if prevCased then pyIsTitleAux true true t else false
    else pyIsTitleAux false found t

/-- Python `str.istitle()` over ASCII: uppercase letters follow only
uncased characters, lowercase letters follow only cased characters, and at
least one cased character occurs. -/
def pyIsTitle (s : List Char) : Bool := pyIsTitleAux false false s

/-- `re.sub(r'^[•\-\*]\s*', '', stripped)`: drop one leading bullet glyph
and the whitespace run after it. -/
def stripBullet (s : List Char) : List Char :=
  match s with
  | c :: t => if c = '•' || c = '-' || c = '*' then t.dropWhile pyIsSpace else s
  | [] => []

/-- First date alternative `^[A-Z][a-z]{2,8}\.?\s+\d{4}` (anchored at the
start; the bounded repetition tries every length from 2 to 8). -/
def tryMonthYear (s : List Char) : Bool :=
  match s with
  | c :: rest =>
    if isUpperAlpha c then
      (List.range' 2 7).any (fun n =>
        if n ≤ (rest.takeWhile isLowerAlpha).length then
          let r := rest.drop n
          let r := match r with | '.' :: t => t | _ => r
          match dropWS1 r with
          | some r2 =>
            (match r2 with
             | a :: b :: c' :: d :: _ => a.isDigit && b.isDigit && c'.isDigit && d.isDigit
             | _ => false)
          | none => false
        else false)
    else false
  | [] => false

/-- `^\d{4}`: the line starts with four digits. -/
def startsWith4Digits (s : List Char) : Bool :=
  match s with
  | a :: b :: c :: d :: _ => a.isDigit && b.isDigit && c.isDigit && d.isDigit
  | _ => false

/-- The year-range alternatives `\d{4}\s*[–-]\s*\d{4}` and
`\d{4}\s*[–-]\s*[A-Z]` at this position. -/
def tryYearRange (s : List Char) : Bool :=
  match s with
  | a :: b :: c :: d :: rest =>
    if a.isDigit && b.isDigit && c.isDigit && d.isDigit then
      match rest.dropWhile pyIsSpace with
      | e :: r2 =>
        if e = '–' || e = '-' then
          let r3 := r2.dropWhile pyIsSpace
          (match r3 with
           | f :: g :: h :: i :: _ => f.isDigit && g.isDigit && h.isDigit && i.isDigit
           | _ => false) ||
          (match r3 with
           | f :: _ => isUpperAlpha f
           | _ => false)
        else false
      | [] => false
    else false
  | _ => false

/-- Try a position predicate at every suffix. -/
def anyPos (f : List Char → Bool) : List Char → Bool
  | [] => f []
  | c :: t => f (c :: t) || anyPos f t

/-- `re.search` of the date pattern of `is_heading`. -/
def matchesDatePattern (s : List Char) : Bool :=
  tryMonthYear s || startsWith4Digits s || anyPos tryYearRange s

/-- The fixed heading keyword list of `is_heading`. -/
def heading_keywords : List (List Char) :=
  [pys "experience", pys "education", pys "skills", pys "projects",
   pys "coursework", pys "certifications", pys "activities", pys "summary",
   pys "objective", pys "awards", pys "publications", pys "leadership",
   pys "extra-curricular", pys "extracurricular", pys "technical"]

/-- From `src/app/services/heading_detector.py`, `is_heading`: the pure
format-heuristic line classifier. -/
def is_heading (line : List Char) : Bool :=
  let stripped := pyStrip line
  if stripped.isEmpty then false
  else
    let cleaned := stripBullet stripped
    if (match stripped with
        | c :: _ => c = '•' || c = '-' || c = '*'
        | [] => false) && stripped.any (fun c => c = ':') then false
    else
      let word_count := (pySplitWS cleaned).length
      if word_count > 5 then false
      else if matchesDatePattern stripped then false
      else if stripped.any (fun c => c = '@' || c = '+' || c = '(' || c = ')') then false
      else if (match stripped.reverse with
               | c :: _ => c = '.' || c = ',' || c = ';'
               | [] => false) then false
      else
        let lower_text := pyLower cleaned
        let has_keyword := heading_keywords.any (fun k => isSubstr k lower_text)
        if pyIsUpper cleaned && word_count ≤ 4 then true
        else if pyIsTitle cleaned && has_keyword then true
        else if heading_keywords.any (fun k => k == lower_text) then true
        else false

/-- Python `text.split("\n")`. -/
def pySplitLines : List Char → List (List Char)
  | [] => [[]]
  | c :: t =>
    if c = '\n' then [] :: pySplitLines t
    else
      match pySplitLines t with
      | l :: ls => (c :: l) :: ls
      | [] => [[c]]

/-- Python `"\n".join(lines)`. -/
def pyJoinNL : List (List Char) → List Char
  | [] => []
  | [a] => a
  | a :: b :: rest => a ++ '\n' :: pyJoinNL (b :: rest)

/-- Python dict assignment `d[k] = v` on an insertion-ordered association
list: overwrite in place when the key exists, else append. -/
def dictInsert (d : List (List Char × List Char)) (k v : List Char) :
    List (List Char × List Char) :=
  if d.any (fun p => p.1 == k) then
    d.map (fun p => if p.1 == k then (k, v) else p)
  else d ++ [(k, v)]

/-- The line loop of `split_into_sections`: accumulate content lines, seal
the previous section (when it has content) under its heading at each
detected heading, seal the final open section at end of input. -/
def splitLoop (dict : List (List Char × List Char)) (curH : List Char)
    (curC : List (List Char)) : List (List Char) → List (List Char × List Char)
  | [] => if curC.isEmpty then dict else dictInsert dict curH (pyStrip (pyJoinNL curC))
  | l :: ls =>
    if is_heading l then
      splitLoop
        (if curC.isEmpty then dict else dictInsert dict curH (pyStrip (pyJoinNL curC)))
        (pyStrip l) [] ls
    else splitLoop dict curH (curC ++ [l]) ls

/-- From `src/app/services/section_splitter.py`, `split_into_sections`:
walk the lines starting in the implicit `header` section, then drop
sections whose content is empty. -/
def split_into_sections (text : List Char) : List (List Char × List Char) :=
  (splitLoop [] (pys "header") [] (pySplitLines text)).filter (fun p => !p.2.isEmpty)

/-- Reference decomposition of a line list: the leading run of non-heading
lines, then for each heading line the run of non-heading lines after it. -/
def segments : List (List Char) → List (List Char) × List (List Char × List (List Char))
  | [] => ([], [])
  | l :: ls =>
    let r := segments ls
    if is_heading l then ([], (l, r.1) :: r.2)
    else (l :: r.1, r.2)

/-- **C5, counterexample.** On the document `"SKILLS\n\nPython\n"` the
splitter consumes one heading line and seals one section whose content,
after the `.strip()` the source applies, is the single line `"Python"`:
the two blank lines of the document are lost, so no concatenation of the
section contents and the consumed heading lines can reproduce the original
4-line sequence. -/
theorem claim_C5_round_trip_cex :
    split_into_sections (pys "SKILLS\n\nPython\n") = [(pys "SKILLS", pys "Python")] ∧
    pySplitLines (pys "SKILLS\n\nPython\n") = [pys "SKILLS", pys "", pys "Python", pys ""] ∧
    ((split_into_sections (pys "SKILLS\n\nPython\n")).map
        (fun p => (pySplitLines p.2).length)).sum +
      ((pySplitLines (pys "SKILLS\n\nPython\n")).filter is_heading).length ≠
      (pySplitLines (pys "SKILLS\n\nPython\n")).length := by
  refine ⟨by decide, by decide, by decide⟩

theorem pySplitLines_ne_nil : ∀ s : List Char, pySplitLines s ≠ [] := by
  intro s
  induction s with
  | nil => simp [pySplitLines]
  | cons c t ih =>
    simp only [pySplitLines]
    split
    · simp
    · cases h : pySplitLines t with
      | nil => simp
      | cons l ls => simp

theorem pySplitLines_no_newline : ∀ (s : List Char), ∀ l ∈ pySplitLines s, '\n' ∉ l := by
  intro s
  induction s with
  | nil =>
    intro l hl
    simp only [pySplitLines, List.mem_singleton] at hl
    subst hl
    simp
  | cons c t ih =>
    intro l hl
    simp only [pySplitLines] at hl
    by_cases hc : c = '\n'
    · rw [if_pos hc] at hl
      rcases List.mem_cons.mp hl with rfl | hl
      · simp
      · exact ih l hl
    · rw [if_neg hc] at hl
      cases h : pySplitLines t with
      | nil => exact absurd h (pySplitLines_ne_nil t)
      | cons l0 ls =>
        rw [h] at hl
        rcases List.mem_cons.mp hl with rfl | hl
        · intro hmem
          rcases List.mem_cons.mp hmem with h1 | h1
          · exact hc h1.symm
          · exact ih l0 (h ▸ List.mem_cons_self l0 ls) h1
        · exact ih l (h ▸ List.mem_cons_of_mem l0 hl)

theorem pySplitLines_of_no_newline : ∀ (a : List Char), '\n' ∉ a → pySplitLines a = [a] := by
  intro a
  induction a with
  | nil => intro _; rfl
  | cons c t ih =>
    intro h
    have hc : ¬(c = '\n') := fun hcc => h (hcc ▸ List.mem_cons_self c t)
    simp only [pySplitLines, if_neg hc]
    rw [ih (fun hm => h (List.mem_cons_of_mem c hm))]

theorem pySplitLines_append_newline : ∀ (a x : List Char), '\n' ∉ a →
    pySplitLines (a ++ '\n' :: x) = a :: pySplitLines x := by
  intro a
  induction a with
  | nil =>
    intro x _
    simp [pySplitLines]
  | cons c t ih =>
    intro x h
    have hc : ¬(c = '\n') := fun hcc => h (hcc ▸ List.mem_cons_self c t)
    simp only [List.cons_append, pySplitLines, if_neg hc, List.append_eq]
    rw [ih x (fun hm => h (List.mem_cons_of_mem c hm))]

theorem pySplitLines_joinNL : ∀ (ls : List (List Char)), ls ≠ [] →
    (∀ l ∈ ls, '\n' ∉ l) → pySplitLines (pyJoinNL ls) = ls := by
  intro ls
  induction ls with
  | nil => intro h; exact absurd rfl h
  | cons a rest ih =>
    intro _ hnl
    cases rest with
    | nil => exact pySplitLines_of_no_newline a (hnl a (List.mem_cons_self a []))
    | cons b rest' =>
      show pySplitLines (a ++ '\n' :: pyJoinNL (b :: rest')) = _
      rw [pySplitLines_append_newline a _ (hnl a (List.mem_cons_self _ _))]
      rw [ih (by simp) (fun l hl => hnl l (List.mem_cons_of_mem a hl))]

theorem segments_partition : ∀ lines : List (List Char),
    lines = (segments lines).1 ++ (segments lines).2.flatMap (fun g => g.1 :: g.2) := by
  intro lines
  induction lines with
  | nil => rfl
  | cons l ls ih =>
    by_cases hl : is_heading l
    · simp only [segments, hl, if_true, List.nil_append, List.flatMap_cons, List.cons_append]
      exact congrArg (l :: ·) ih
    · simp only [segments, hl, if_false, List.cons_append]
      exact congrArg (l :: ·) ih

theorem isEmpty_false_of_ne_nil {α} {l : List α} (h : l ≠ []) : l.isEmpty = false := by
  cases l with
  | nil => exact absurd rfl h
  | cons a t => rfl

theorem dictInsert_fresh (d : List (List Char × List Char)) (k v : List Char)
    (h : ∀ p ∈ d, p.1 ≠ k) : dictInsert d k v = d ++ [(k, v)] := by
  unfold dictInsert
  rw [if_neg ?_]
  intro ha
  rcases List.any_eq_true.mp ha with ⟨p, hp, hbeq⟩
  exact h p hp (by simpa using hbeq)

/-- The section sealed for heading `h` from the accumulated content lines
`c`: nothing when no content accumulated. -/
def sealSec (h : List Char) (c : List (List Char)) : List (List Char × List Char) :=
  if c.isEmpty then [] else [(h, pyStrip (pyJoinNL c))]

theorem splitLoop_spec :
    ∀ (lines : List (List Char)) (dict : List (List Char × List Char))
      (curH : List Char) (curC : List (List Char)),
      (∀ p ∈ dict, p.1 ≠ curH ∧ ∀ g ∈ (segments lines).2, p.1 ≠ pyStrip g.1) →
      (∀ g ∈ (segments lines).2, curH ≠ pyStrip g.1) →
      ((segments lines).2.map (fun g => pyStrip g.1)).Nodup →
      (∀ g ∈ (segments lines).2, g.2 ≠ []) →
      splitLoop dict curH curC lines =
        dict ++ sealSec curH (curC ++ (segments lines).1) ++
          (segments lines).2.map (fun g => (pyStrip g.1, pyStrip (pyJoinNL g.2))) := by
  intro lines
  induction lines with
  | nil =>
    intro dict curH curC h1 _ _ _
    by_cases hc : curC.isEmpty
    · simp [splitLoop, segments, sealSec, hc]
    · simp only [splitLoop, segments, List.append_nil, List.map_nil, sealSec]
      rw [if_neg hc, if_neg hc, dictInsert_fresh _ _ _ (fun p hp => (h1 p hp).1)]
  | cons l ls ih =>
    intro dict curH curC h1 h2 h3 h4
    by_cases hl : is_heading l
    · have hseg : segments (l :: ls) = ([], (l, (segments ls).1) :: (segments ls).2) := by
        simp [segments, hl]
      rw [hseg] at h1 h2 h3 h4 ⊢
      have hs1ne : (segments ls).1 ≠ [] := h4 (l, (segments ls).1) (List.mem_cons_self _ _)
      have hdict' : (if curC.isEmpty then dict
          else dictInsert dict curH (pyStrip (pyJoinNL curC))) = dict ++ sealSec curH curC := by
        by_cases hc : curC.isEmpty
        · simp [sealSec, hc]
        · rw [if_neg hc, dictInsert_fresh _ _ _ (fun p hp => (h1 p hp).1)]
          simp [sealSec, hc]
      simp only [splitLoop, if_pos hl]
      rw [hdict']
      rw [ih (dict ++ sealSec curH curC) (pyStrip l) [] ?ha ?hb ?hc ?hd]
      case ha =>
        intro p hp
        rcases List.mem_append.mp hp with hp | hp
        · exact ⟨(h1 p hp).2 (l, (segments ls).1) (List.mem_cons_self _ _),
            fun g hg => (h1 p hp).2 g (List.mem_cons_of_mem _ hg)⟩
        · have hpc : p.1 = curH := by
            unfold sealSec at hp
            split at hp
            · simp at hp
            · rw [List.mem_singleton.mp hp]
          rw [hpc]
          exact ⟨h2 (l, (segments ls).1) (List.mem_cons_self _ _),
            fun g hg => h2 g (List.mem_cons_of_mem _ hg)⟩
      case hb =>
        intro g hg heq
        simp only [List.map_cons, List.nodup_cons] at h3
        exact h3.1 (heq ▸ List.mem_map_of_mem (fun g => pyStrip g.1) hg)
      case hc =>
        simp only [List.map_cons, List.nodup_cons] at h3
        exact h3.2
      case hd =>
        exact fun g hg => h4 g (List.mem_cons_of_mem _ hg)
      · have hs1f : ((segments ls).1).isEmpty = false := isEmpty_false_of_ne_nil hs1ne
        simp [sealSec, hs1f, List.append_assoc]
    · have hseg : segments (l :: ls) = (l :: (segments ls).1, (segments ls).2) := by
        simp [segments, hl]
      rw [hseg] at h1 h2 h3 h4 ⊢
      simp only [splitLoop, if_neg hl]
      rw [ih dict curH (curC ++ [l]) h1 h2 h3 h4]
      rw [List.append_assoc curC [l] (segments ls).1]
      rfl

/-- **C5, amended.** For documents in which every heading-delimited content
block is non-blank and carries no leading/trailing whitespace (so the
`.strip()` the splitter applies is the identity and no section is dropped),
and whose stripped headings are pairwise distinct and distinct from the
implicit `header` key, the splitter output is exactly the document-order
sequence of blocks, and concatenating the sections' content lines together
with every consumed heading line reproduces the original line sequence:
the lines split as leading block plus (heading, block) groups, the sections
are precisely those blocks joined, and each stored content string splits
back into exactly its original lines. -/
theorem claim_C5_round_trip_amended :
    ∀ text : List Char,
      (∀ g ∈ (segments (pySplitLines text)).2,
        pyStrip (pyJoinNL g.2) = pyJoinNL g.2 ∧ pyJoinNL g.2 ≠ []) →
      ((segments (pySplitLines text)).1 = [] ∨
        (pyStrip (pyJoinNL (segments (pySplitLines text)).1) =
            pyJoinNL (segments (pySplitLines text)).1 ∧
          pyJoinNL (segments (pySplitLines text)).1 ≠ [])) →
      ((segments (pySplitLines text)).2.map (fun g => pyStrip g.1)).Nodup →
      pys "header" ∉ (segments (pySplitLines text)).2.map (fun g => pyStrip g.1) →
      split_into_sections text =
          (if (segments (pySplitLines text)).1.isEmpty then []
           else [(pys "header", pyJoinNL (segments (pySplitLines text)).1)]) ++
            (segments (pySplitLines text)).2.map (fun g => (pyStrip g.1, pyJoinNL g.2)) ∧
      pySplitLines text =
          (segments (pySplitLines text)).1 ++
            (segments (pySplitLines text)).2.flatMap (fun g => g.1 :: g.2) ∧
      (∀ g ∈ (segments (pySplitLines text)).2, pySplitLines (pyJoinNL g.2) = g.2) ∧
      ((segments (pySplitLines text)).1 ≠ [] →
        pySplitLines (pyJoinNL (segments (pySplitLines text)).1) =
          (segments (pySplitLines text)).1) := by
  intro text h1 h2 h3 h4
  have hpart := segments_partition (pySplitLines text)
  have hmemlines : ∀ g ∈ (segments (pySplitLines text)).2, ∀ l ∈ g.2,
      l ∈ pySplitLines text := by
    intro g hg l hlmem
    rw [hpart]
    exact List.mem_append_right _
      (List.mem_flatMap.mpr ⟨g, hg, List.mem_cons_of_mem _ hlmem⟩)
  have hleadmem : ∀ l ∈ (segments (pySplitLines text)).1, l ∈ pySplitLines text := by
    intro l hlmem
    rw [hpart]
    exact List.mem_append_left _ hlmem
  have hg2ne : ∀ g ∈ (segments (pySplitLines text)).2, g.2 ≠ [] := by
    intro g hg hnil
    exact (h1 g hg).2 (by rw [hnil]; rfl)
  refine ⟨?_, hpart, ?_, ?_⟩
  · have hspec := splitLoop_spec (pySplitLines text) [] (pys "header") []
      (fun p hp => absurd hp (List.not_mem_nil p))
      (fun g hg he => h4 (he ▸ List.mem_map_of_mem _ hg))
      h3 hg2ne
    unfold split_into_sections
    rw [hspec]
    have hmapeq : (segments (pySplitLines text)).2.map
          (fun g => (pyStrip g.1, pyStrip (pyJoinNL g.2))) =
        (segments (pySplitLines text)).2.map (fun g => (pyStrip g.1, pyJoinNL g.2)) :=
      List.map_congr_left (fun g hg => by rw [(h1 g hg).1])
    rw [hmapeq]
    have hseal : sealSec (pys "header") ([] ++ (segments (pySplitLines text)).1) =
        (if ((segments (pySplitLines text)).1).isEmpty then []
         else [(pys "header", pyJoinNL (segments (pySplitLines text)).1)]) := by
      rcases h2 with h2 | h2
      · simp [sealSec, h2]
      · have hle : ((segments (pySplitLines text)).1).isEmpty = false :=
          isEmpty_false_of_ne_nil (fun h => h2.2 (by rw [h]; rfl))
        simp [sealSec, hle, h2.1]
    rw [hseal, List.nil_append]
    apply List.filter_eq_self.mpr
    intro p hp
    rcases List.mem_append.mp hp with hp | hp
    · by_cases hle : ((segments (pySplitLines text)).1).isEmpty
      · rw [if_pos hle] at hp
        exact absurd hp (List.not_mem_nil p)
      · rw [if_neg hle] at hp
        rw [List.mem_singleton.mp hp]
        have hlead_ne : (segments (pySplitLines text)).1 ≠ [] :=
          fun h => hle (by rw [h]; rfl)
        rcases h2 with h2 | h2
        · exact absurd h2 hlead_ne
        · simp [isEmpty_false_of_ne_nil h2.2]
    · rcases List.mem_map.mp hp with ⟨g, hg, rfl⟩
      simp [isEmpty_false_of_ne_nil (h1 g hg).2]
  · intro g hg
    exact pySplitLines_joinNL g.2 (hg2ne g hg)
      (fun l hl => pySplitLines_no_newline text l (hmemlines g hg l hl))
  · intro hne
    exact pySplitLines_joinNL _ hne
      (fun l hl => pySplitLines_no_newline text l (hleadmem l hl))

/-- A document satisfying the side conditions of the amended C5 claim. -/
def docW : List Char := pys "John Doe\nSKILLS\nPython, AWS\nPROJECTS\nBuilt a thing"

/-- Witness for C5 (amended) on a concrete five-line resume document. -/
theorem claim_C5_round_trip_amended_witness :
    split_into_sections docW =
      (if ((segments (pySplitLines docW)).1).isEmpty then []
       else [(pys "header", pyJoinNL (segments (pySplitLines docW)).1)]) ++
        (segments (pySplitLines docW)).2.map (fun g => (pyStrip g.1, pyJoinNL g.2)) :=
  (claim_C5_round_trip_amended docW (by decide) (by decide) (by decide) (by decide)).1
